import Mathlib

/-!
Verification development for the cloudformer/cloudpuff template engine.

The inline mini-language parser is embedded from
`cloudformer/templates/string_parser.py`: the token scanner mirrors
`StringParser.PARSE_STR_RE`, the stack machine mirrors `StringParserStack`,
`StringParserStackItem`, `BlockFunction`, `IfBlockFunction` and
`ElseBlockFunction`, and `parseStringE` mirrors `StringParser.parse_string`.
The compiler driver is embedded from `cloudpuff/templates/compiler.py`.

Python objects are represented as follows: strings, dicts, lists,
`VarReference`, `VarsStringsList` and `UncollapsibleList` values become the
`Val` inductive; parser stack items become the `SNode` inductive, with the
stack held as a zipper (an open frame is kept on the stack and appended into
its parent's current content bucket when popped, which matches the mutable
aliasing of the Python code because no content is added to a parent while a
child frame is open above it).  Python exceptions become the `PyErr` error
monad: `ConstructorError` carries its message, and `IndexError` /
`KeyError` / `AttributeError` / `TypeError` model the uncaught built-in
exceptions that the code can raise.

`TemplateState` (cloudformer/templates/state.py) and `TemplateReader`
(cloudpuff/templates/reader.py) are not part of the sources; the few
operations the embedded code calls on them are modelled from the spec and
are marked `Modelled from the spec:` at their definitions.
-/

/-- A plain data value, as produced by serializing parsed template content.
`s`, `list` and `dict` are Python strings, lists and (ordered) dicts;
`varRef` is a `VarReference` placeholder; `varsList` is a `VarsStringsList`
(a list subclass marking a strings-and-variables sequence); `uncollapsible`
is an `UncollapsibleList` (a list subclass protected from later collapsing);
`pyObj` stands for a live parser object that leaked into a value position
(a `Function` instance stored as a function parameter), which is not equal
to any plain data value. -/
inductive Val where
  | s (str : String)
  | varRef (name : String)
  | list (xs : List Val)
  | varsList (xs : List Val)
  | uncollapsible (xs : List Val)
  | dict (entries : List (String × Val))
  | pyObj
deriving Repr

/-- A stack item of the string parser.  `val` is plain (non-item) content;
`root` is a bare `StringParserStackItem`; `blockFn` is a `BlockFunction`;
`ifBlk` is an `IfBlockFunction` (with its `_is_elseif` flag, the bucket
currently targeted by `_cur_content`, and the two content buckets);
`elseBlk` is an `ElseBlockFunction`.  Every constructor carrying contents
also carries the `pop_count` attribute. -/
inductive SNode where
  | val (v : Val)
  | root (contents : List SNode) (popCount : Nat)
  | blockFn (name : String) (params : List Val) (contents : List SNode) (popCount : Nat)
  | ifBlk (name : String) (params : List Val) (isElseIf : Bool) (inFalse : Bool)
      (tC : List SNode) (fC : List SNode) (popCount : Nat)
  | elseBlk (name : String) (params : List Val) (contents : List SNode) (popCount : Nat)
deriving Repr

/-- Python errors raised by the embedded code. -/
inductive PyErr where
  | constructorError (msg : String)
  | indexError
  | keyError (k : String)
  | attributeError
  | typeError
deriving Repr, DecidableEq

/-- `isinstance(content, Function)`: all function classes, the bare
`StringParserStackItem` and plain values are not. -/
def isFunctionNode : SNode → Bool
  | .blockFn _ _ _ _ => true
  | .ifBlk _ _ _ _ _ _ _ => true
  | .elseBlk _ _ _ _ => true
  | _ => false

/-- The `func_name` attribute of a function node. -/
def funcNameOf : SNode → Option String
  | .blockFn n _ _ _ => some n
  | .ifBlk n _ _ _ _ _ _ => some n
  | .elseBlk n _ _ _ => some n
  | _ => none

/-- The `pop_count` attribute. -/
def popCountOf : SNode → Nat
  | .val _ => 1
  | .root _ pc => pc
  | .blockFn _ _ _ pc => pc
  | .ifBlk _ _ _ _ _ _ pc => pc
  | .elseBlk _ _ _ pc => pc

/-- The `contents` attribute (for `IfBlockFunction` the base-class list is
never appended to, because its `add_content` override stores into the
true/false buckets instead, so it is always empty). -/
def contentsOf : SNode → List SNode
  | .val _ => []
  | .root cs _ => cs
  | .blockFn _ _ cs _ => cs
  | .ifBlk _ _ _ _ _ _ _ => []
  | .elseBlk _ _ cs _ => cs

/-- Python truthiness of a `Val` (`VarReference` instances are plain objects
and therefore truthy). -/
def valTruthy : Val → Bool
  | .s str => !str.isEmpty
  | .varRef _ => true
  | .list xs => !xs.isEmpty
  | .varsList xs => !xs.isEmpty
  | .uncollapsible xs => !xs.isEmpty
  | .dict es => !es.isEmpty
  | .pyObj => true

/-- `isinstance(v, VarReference)`. -/
def isVarRefVal : Val → Bool
  | .varRef _ => true
  | _ => false

/-- Modelled from the spec: `TemplateState.process_tree` with
`resolve_variables=False` (and condition resolution off) is a structural
walk that performs no rewriting, and `TemplateState.normalize_vars_list`
marks a sequence containing unresolved variable references as a
`VarsStringsList` so that it passes through content normalization without
being string-joined (state.py is not among the sources; §4.1-§4.2 of the
spec and the reader tests fix this behaviour). -/
def normalizeVarsList (xs : List Val) : Val :=
  if xs.any isVarRefVal then .varsList xs else .list xs

/-- The tail of `StringParserStackItem.normalize_content`'s list branch:
a length-1 sequence collapses to its element, a longer plain sequence is
wrapped in `Fn::Join`, and a `VarsStringsList` of length > 1 passes
through unchanged. -/
def collapseListVal : Val → Val
  | .varsList [x] => x
  | .list [x] => x
  | .list (x :: y :: rest) =>
      .dict [("Fn::Join", .list [.s "", .list (x :: y :: rest)])]
  | w => w

/-- `isinstance(x, list)` splicing used by
`IfBlockFunction.normalize_function_contents`: list subclasses contribute
their elements, anything else contributes itself. -/
def spliceVal : Val → List Val
  | .list xs => xs
  | .varsList xs => xs
  | .uncollapsible xs => xs
  | v => [v]

mutual

/-- `StringParserStackItem.normalize_content` applied to a single piece of
content: plain values pass through; stack items are serialized
(`serialize` for a bare item yields a list of normalized contents, which
then runs through the list branch — the
`collapseListVal (normalizeVarsList ·)` pipeline; `BlockFunction.serialize`
yields the `Fn::`-prefixed mapping; `IfBlockFunction` serializes its two
buckets, always emitting the true part and emitting the false part only
when truthy, splicing list-valued parts). -/
def normalizeNode : SNode → Val
  | .val v => v
  | .root cs _ => collapseListVal (normalizeVarsList (normalizeEach cs))
  | .blockFn name ps cs _ =>
      .dict [("Fn::" ++ name, .uncollapsible (ps ++ normalizeEach cs))]
  | .ifBlk _ ps _ _ tC fC _ =>
      let t := collapseListVal (normalizeVarsList (normalizeEach tC))
      let f := collapseListVal (normalizeVarsList (normalizeEach fC))
      .dict [("Fn::If", .uncollapsible
        (ps ++ (spliceVal t ++ (if valTruthy f then spliceVal f else []))))]
  | .elseBlk name ps cs _ =>
      .dict [("Fn::" ++ name, .uncollapsible (ps ++ normalizeEach cs))]
termination_by structural n => n

/-- `normalize_content` mapped over a content list (the comprehensions in
`serialize` and `normalize_function_contents`). -/
def normalizeEach : List SNode → List Val
  | [] => []
  | c :: cs => normalizeNode c :: normalizeEach cs
termination_by structural l => l

end

/-- The list branch of `normalize_content`: normalize the elements, run the
state's `process_tree`/`normalize_vars_list`, then collapse or join. -/
def normalizeContents (cs : List SNode) : Val :=
  collapseListVal (normalizeVarsList (normalizeEach cs))

/-! ## The token scanner

`StringParser.PARSE_STR_RE` is an alternation of four token classes
(function open, function close, reference, variable).  `re.finditer` yields
the leftmost match, trying the alternatives in order at each position;
`tryMatch` implements exactly that at a single position and `lexAux` scans
the line left to right, collecting unmatched characters as literal text.
Matching is deterministic here: every quantified subpattern is over a
character class disjoint from what follows it, so greedy matching without
backtracking (beyond the explicit optional groups) is faithful. -/

/-- Python `\s` (`str.strip`/regex whitespace): space, tab, newline,
carriage return, vertical tab, form feed. -/
def isPySpace (c : Char) : Bool :=
  c = ' ' || c = '\t' || c = '\n' || c = '\r' || c = '\x0b' || c = '\x0c'

/-- Consume `\s*`. -/
def skipWs : List Char → List Char
  | [] => []
  | c :: rest => if isPySpace c then skipWs rest else c :: rest

/-- Greedy `p+`: fails on an empty match. -/
def takeWhile1P (p : Char → Bool) (cs : List Char) :
    Option (List Char × List Char) :=
  let t := cs.takeWhile p
  if t.isEmpty then none else some (t, cs.drop t.length)

/-- `[A-Za-z]` (ASCII letters, as in the `func_name` group). -/
def isAsciiAlpha (c : Char) : Bool :=
  ('A' ≤ c && c ≤ 'Z') || ('a' ≤ c && c ≤ 'z')

/-- `[0-9]`. -/
def isAsciiDigit (c : Char) : Bool :=
  '0' ≤ c && c ≤ '9'

/-- `[A-Za-z0-9:_]` (the `ref_name` group). -/
def isRefChar (c : Char) : Bool :=
  isAsciiAlpha c || isAsciiDigit c || c = ':' || c = '_'

/-- `[A-Za-z0-9_]` (the `var_name` group). -/
def isVarNameChar (c : Char) : Bool :=
  isAsciiAlpha c || isAsciiDigit c || c = '_'

/-- `[A-Za-z0-9_.]` (the `var_path` group). -/
def isVarPathChar (c : Char) : Bool :=
  isVarNameChar c || c = '.'

/-- A recognized occurrence of one of the four token classes, or a literal
text segment between them. -/
inductive Event where
  | content (s : List Char)
  | funcTok (name : String) (params : Option (List Char)) (opened : Bool)
  | closeTok
  | refTok (name : String)
  | varTok (name : String)
deriving Repr, DecidableEq

/-- The literal `%>`. -/
def matchPercentGt : List Char → Option (List Char)
  | '%' :: '>' :: rest => some rest
  | _ => none

/-- An optional trailing `\n` (the `\n?` after both `%>` variants). -/
def dropOptionalNl : List Char → List Char
  | '\n' :: rest => rest
  | r => r

/-- The function-open alternative after its `<%` anchor:
`\s*(?P<func_name>[A-Za-z]+)\s*(\((?P<params>[^)]+)\))?(?P<func_open>\s*\x7b)?\s*%>\n?`. -/
def matchFuncBody (r : List Char) : Option (Event × List Char) :=
  match takeWhile1P isAsciiAlpha (skipWs r) with
  | none => none
  | some (name, r2) =>
    let pr : Option (List Char) × List Char :=
      match skipWs r2 with
      | '(' :: rA =>
        match takeWhile1P (fun c => c ≠ ')') rA with
        | some (inner, rB) =>
          match rB with
          | ')' :: rC => (some inner, rC)
          | _ => (none, skipWs r2)
        | none => (none, skipWs r2)
      | _ => (none, skipWs r2)
    let opr : Bool × List Char :=
      match skipWs pr.2 with
      | '\x7b' :: rD => (true, rD)
      | _ => (false, pr.2)
    match matchPercentGt (skipWs opr.2) with
    | some r8 => some (.funcTok (String.mk name) pr.1 opr.1, dropOptionalNl r8)
    | none => none

/-- The function-close alternative after its `<%` anchor: `\s*\x7d\s*%>\n?`. -/
def matchCloseBody (r : List Char) : Option (Event × List Char) :=
  match skipWs r with
  | '\x7d' :: r2 =>
    match matchPercentGt (skipWs r2) with
    | some r3 => some (.closeTok, dropOptionalNl r3)
    | none => none
  | _ => none

/-- The reference alternative after its `@@` anchor:
`(?P<ref_brace>\x7b)?(?P<ref_name>[A-Za-z0-9:_]+)(?(ref_brace)\x7d)`. -/
def matchRefBody (r : List Char) : Option (Event × List Char) :=
  match r with
  | '\x7b' :: r1 =>
    match takeWhile1P isRefChar r1 with
    | some (name, r2) =>
      match r2 with
      | '\x7d' :: r3 => some (.refTok (String.mk name), r3)
      | _ => none
    | none => none
  | _ =>
    match takeWhile1P isRefChar r with
    | some (name, r2) => some (.refTok (String.mk name), r2)
    | none => none

/-- The variable alternative after its `$$` anchor:
`((?P<var_name>[A-Za-z0-9_]+)|\x7b(?P<var_path>[A-Za-z0-9_.]+)\x7d)`;
both groups are handled identically by `_handle_var`. -/
def matchVarBody (r : List Char) : Option (Event × List Char) :=
  match takeWhile1P isVarNameChar r with
  | some (name, r2) => some (.varTok (String.mk name), r2)
  | none =>
    match r with
    | '\x7b' :: r1 =>
      match takeWhile1P isVarPathChar r1 with
      | some (p, r2) =>
        match r2 with
        | '\x7d' :: r3 => some (.varTok (String.mk p), r3)
        | _ => none
      | none => none
    | _ => none

/-- Try the four alternatives of `PARSE_STR_RE` at the current position,
in the regex's order. -/
def tryMatch : List Char → Option (Event × List Char)
  | '<' :: '%' :: r =>
    (matchFuncBody r).orElse (fun _ => matchCloseBody r)
  | '@' :: '@' :: r => matchRefBody r
  | '$' :: '$' :: r => matchVarBody r
  | _ => none

/-- The `finditer` loop of `_parse_line`, producing the interleaved
sequence of literal segments and tokens.  `pending` holds (reversed) the
characters since the last match end; `started` records whether the scan
position is past the start of the line (the Python code emits the pending
segment before a match only when `start > 0`, so a match at position 0
emits nothing while two adjacent matches past position 0 emit an empty
literal).  The fuel argument only serves termination: every step consumes
at least one character, so `length + 1` fuel is never exhausted. -/
def lexAux : Nat → List Char → Bool → List Char → List Event
  | 0, pending, _, _ =>
      if pending.isEmpty then [] else [.content pending.reverse]
  | _ + 1, pending, _, [] =>
      if pending.isEmpty then [] else [.content pending.reverse]
  | fuel + 1, pending, started, c :: rest =>
    match tryMatch (c :: rest) with
    | some (ev, r2) =>
        (if started then [.content pending.reverse] else [])
          ++ ev :: lexAux fuel [] true r2
    | none => lexAux fuel (c :: pending) true rest

/-- Scan one line for tokens (the body of `_parse_line`'s loop). -/
def lexLine (s : List Char) : List Event :=
  lexAux (s.length + 1) [] false s

/-- Python `str.splitlines(True)` restricted to the `\n`, `\r\n` and `\r`
terminators (the only ones template sources use). -/
def splitLinesAux (acc : List Char) : List Char → List (List Char)
  | [] => if acc.isEmpty then [] else [acc.reverse]
  | '\n' :: rest => (acc.reverse ++ ['\n']) :: splitLinesAux [] rest
  | '\r' :: '\n' :: rest => (acc.reverse ++ ['\r', '\n']) :: splitLinesAux [] rest
  | '\r' :: rest => (acc.reverse ++ ['\r']) :: splitLinesAux [] rest
  | c :: rest => splitLinesAux (c :: acc) rest
termination_by structural l => l

/-- `s.splitlines(True)`. -/
def splitLinesC (s : List Char) : List (List Char) :=
  splitLinesAux [] s

/-- Python `str.strip()`. -/
def stripPy (s : List Char) : List Char :=
  ((s.dropWhile isPySpace).reverse.dropWhile isPySpace).reverse

/-- `re.split(',\s*', params)` (`FUNC_PARAM_RE`): split at each comma,
also consuming the whitespace that follows it. -/
def splitParamsAux (cur : List Char) (skipping : Bool) : List Char → List (List Char)
  | [] => [cur.reverse]
  | c :: rest =>
    if skipping && isPySpace c then splitParamsAux cur true rest
    else if c = ',' then cur.reverse :: splitParamsAux [] true rest
    else splitParamsAux (c :: cur) false rest
termination_by structural l => l

/-- Split a raw parameter string into the individual parameter values. -/
def splitParams (ps : List Char) : List (List Char) :=
  splitParamsAux [] false ps

/-! ## The parsing stack machine

The Python stack aliases: a pushed function object is simultaneously the
topmost stack entry and the last element of its parent's current content
bucket.  Here the stack is a zipper (`Stack`, topmost frame first): a
pushed child is *not* stored in its parent; when a frame is popped it is
appended to the parent's current bucket, which is observationally the same
because no content reaches a parent while a child is open above it. -/

abbrev Stack := List SNode

/-- Rewriting applied by `IfBlockFunction.add_content` when an `ElseIf` is
added: the content is mutated in place into an `If` whose `pop_count` is
the parent's `pop_count` plus one and whose `_is_elseif` flag is set. -/
def rewriteElseIf (content : SNode) (newPc : Nat) : SNode :=
  match content with
  | .ifBlk _ ps _ inF tC fC _ => .ifBlk "If" ps true inF tC fC newPc
  | c => c

/-- `add_content` dispatched on the class of the receiving frame, split
from the physical append (`appendCur`) so that pushed children can be kept
out of the parent (zipper form).  Returns the updated frame, the (possibly
rewritten) content, the Python return value (`can_push`), and whether the
content is to be appended to the frame's current bucket (everything except
an `Else` swallowed by an `IfBlockFunction`). -/
def addContentCore (frame : SNode) (content : SNode) :
    Except PyErr (SNode × SNode × Bool × Bool) :=
  match frame with
  | .root cs pc => .ok (.root cs pc, content, isFunctionNode content, true)
  | .blockFn n ps cs pc =>
      .ok (.blockFn n ps cs pc, content, isFunctionNode content, true)
  | .elseBlk n ps cs pc =>
      .ok (.elseBlk n ps cs pc, content, isFunctionNode content, true)
  | .ifBlk n ps ie inF tC fC pc =>
    if isFunctionNode content &&
        (funcNameOf content = some "Else" || funcNameOf content = some "ElseIf") then
      let cname := (funcNameOf content).getD ""
      if tC.isEmpty then
        .error (.constructorError
          ("Found " ++ cname ++ " without a \"true\" value in the If"))
      else if !fC.isEmpty then
        .error (.constructorError ("Found " ++ cname ++ " after an Else"))
      else if cname = "Else" then
        .ok (.ifBlk n ps ie true tC fC pc, content, false, false)
      else
        .ok (.ifBlk n ps ie true tC fC pc, rewriteElseIf content (pc + 1), true, true)
    else
      .ok (.ifBlk n ps ie inF tC fC pc, content, true, true)
  | .val v => .ok (.val v, content, false, false)

/-- Append content to the frame's current bucket (`self.contents` for
plain items and block functions, `self._cur_content` for an
`IfBlockFunction`). -/
def appendCur (frame : SNode) (content : SNode) : SNode :=
  match frame with
  | .root cs pc => .root (cs ++ [content]) pc
  | .blockFn n ps cs pc => .blockFn n ps (cs ++ [content]) pc
  | .elseBlk n ps cs pc => .elseBlk n ps (cs ++ [content]) pc
  | .ifBlk n ps ie inF tC fC pc =>
      if inF then .ifBlk n ps ie inF tC (fC ++ [content]) pc
      else .ifBlk n ps ie inF (tC ++ [content]) fC pc
  | .val v => .val v

/-- `stack.current.add_content(x)` for non-function content (literal text,
references, variables); raises `IndexError` on an empty stack. -/
def addVal (stack : Stack) (v : Val) : Except PyErr Stack :=
  match stack with
  | [] => .error .indexError
  | top :: rest =>
    match addContentCore top (.val v) with
    | .error e => .error e
    | .ok (top2, c2, _, app) =>
        .ok ((if app then appendCur top2 c2 else top2) :: rest)

/-- Convert a content node back to the plain value `_parse_line` returns
for it in parameter mode; a stack item (a live `Function` object) has no
plain-data representation and becomes `pyObj`. -/
def nodeToVal : SNode → Val
  | .val v => v
  | _ => .pyObj

/-- Merge adjacent literal strings in a list. -/
def mergeAdjacentStrings : List Val → List Val
  | [] => []
  | .s a :: rest =>
    match mergeAdjacentStrings rest with
    | .s b :: merged => .s (a ++ b) :: merged
    | merged => .s a :: merged
  | v :: rest => v :: mergeAdjacentStrings rest

/-- Modelled from the spec: `TemplateState.collapse_variables` (state.py is
not among the sources) collapses a sequence of adjacent string fragments
into a single item when possible and otherwise wraps the sequence in a
join operation (§2 Resolution State).  Only multi-part function parameters
reach it. -/
def collapseVariables (xs : List Val) : Val :=
  match mergeAdjacentStrings xs with
  | [x] => x
  | ys => .dict [("Fn::Join", .list [.s "", .list ys])]

/-- The pop loop of `_handle_func_block_close`: each `stack.pop()` removes
the top frame, which in zipper form folds it into the parent's current
bucket; popping the last frame discards it (the Python list just becomes
empty), and popping an empty stack raises `IndexError`. -/
def popN : Nat → Stack → Except PyErr Stack
  | 0, st => .ok st
  | _ + 1, [] => .error .indexError
  | k + 1, [_] => popN k ([] : Stack)
  | k + 1, f :: p :: rest => popN k (appendCur p f :: rest)

/-- `_handle_func_block_close`: read the top frame's `pop_count`, then pop
that many times. -/
def handleClose (stack : Stack) : Except PyErr Stack :=
  match stack with
  | [] => .error .indexError
  | top :: _ => popN (popCountOf top) stack

/-- Initial parsing fuel.  The only non-structural recursion is
`_handle_func` parsing its parameter substrings through `_parse_line`:
since a parameter string can never contain `)`, a function token inside a
parameter carries no parameter group of its own, so the real recursion
depth is at most two and any fuel of at least a few steps yields the
Python behaviour. -/
def FUEL : Nat := 16

/-- `isinstance(f, IfBlockFunction)`. -/
def isIfFrame : SNode → Bool
  | .ifBlk _ _ _ _ _ _ _ => true
  | _ => false

/-- `cls = self.FUNCTIONS.get(func_name, BlockFunction); cls(func_name,
norm_params)`: `If`/`ElseIf` instantiate `IfBlockFunction`, `Else`
instantiates `ElseBlockFunction`, everything else the plain
`BlockFunction`. -/
def mkFuncNode (name : String) (normParams : List Val) : SNode :=
  if name = "If" || name = "ElseIf" then
    .ifBlk name normParams false false [] [] 1
  else if name = "Else" then
    .elseBlk name normParams [] 1
  else
    .blockFn name normParams [] 1

mutual

/-- One step of `_parse_line`'s match loop: dispatch a scanned event to
`add_content` / `_handle_func` / `_handle_func_block_close` /
`_handle_ref_name` / `_handle_var`. -/
def processEvent : Nat → Stack → Event → Except PyErr Stack
  | 0, _, _ => .error .indexError
  | fuel + 1, stack, ev =>
    match ev with
    | .content cs => addVal stack (.s (String.mk cs))
    | .refTok name => addVal stack (.dict [("Ref", .s name)])
    | .varTok name => addVal stack (.varRef name)
    | .closeTok => handleClose stack
    | .funcTok name ps opened => handleFunc fuel stack name ps opened

/-- `_handle_func`: read the current frame (`IndexError` on an empty
stack), parse the parameter list, instantiate the class registered for the
function name (`If`/`ElseIf` ↦ `IfBlockFunction`, `Else` ↦
`ElseBlockFunction`, default `BlockFunction`), `validate` it, add it to
the current frame, and push it when the add allows it and the token had an
opening brace.  `IfBlockFunction.validate` only errors when `_is_elseif`
is already set, which never holds at construction time, so it accepts any
stack (the misplaced-`ElseIf` check is dead code);
`ElseBlockFunction.validate` requires the current frame to be an
`IfBlockFunction`. -/
def handleFunc : Nat → Stack → String → Option (List Char) → Bool →
    Except PyErr Stack
  | 0, _, _, _, _ => .error .indexError
  | fuel + 1, stack, name, psOpt, opened =>
    match stack with
    | [] => .error .indexError
    | top :: rest =>
      match parseNormParams fuel psOpt with
      | .error e => .error e
      | .ok normParams =>
        if name = "Else" && !(isIfFrame top) then
          .error (.constructorError "Found Else without a matching If")
        else
          match addContentCore top (mkFuncNode name normParams) with
          | .error e => .error e
          | .ok (top2, func2, canPush, app) =>
            if canPush && opened then
              .ok (func2 :: top2 :: rest)
            else
              .ok ((if app then appendCur top2 func2 else top2) :: rest)

/-- The parameter-list parsing of `_handle_func`: `if params:` (a matched
parameter group is never empty) splits on `FUNC_PARAM_RE` and parses each
value through `_parse_line`. -/
def parseNormParams : Nat → Option (List Char) → Except PyErr (List Val)
  | 0, _ => .error .indexError
  | _ + 1, none => .ok []
  | fuel + 1, some pstr => (splitParams pstr).mapM (parseParamValue fuel)

/-- `_parse_line(value)` in parameter mode (`func_stack=None`): parse the
parameter substring on a fresh stack, then return the single collected
part (`IndexError` when there is none) or the collapsed sequence of
parts. -/
def parseParamValue : Nat → List Char → Except PyErr Val
  | 0, _ => .error .indexError
  | fuel + 1, pstr =>
    match (lexLine pstr).foldlM (processEvent fuel) ([SNode.root [] 1] : Stack) with
    | .error e => .error e
    | .ok [] => .error .indexError
    | .ok (cur :: _) =>
      let parts := contentsOf cur
      if parts.length > 1 then
        .ok (collapseVariables (parts.map nodeToVal))
      else
        match parts with
        | [p] => .ok (nodeToVal p)
        | _ => .error .indexError

end

/-- `_parse_line` with a persistent `func_stack`: push a fresh bare item
when the stack is empty, then process the line's scan events in order. -/
def processLine (fuel : Nat) (st : Stack) (l : List Char) : Except PyErr Stack :=
  let st := if st.isEmpty then ([SNode.root [] 1] : Stack) else st
  (lexLine l).foldlM (processEvent fuel) st

/-- The line loop of `parse_string`: feed every line through
`_parse_line` with a shared stack, starting from an empty one. -/
def parseLinesResult (lines : List (List Char)) : Except PyErr Stack :=
  lines.foldlM (processLine FUEL) ([] : Stack)

/-- The tail of `parse_string` after the line loop: reject a stack that
still has open frames (`Unbalanced braces in template`), normalize the
remaining bare item (`stack.current` on an empty stack raises
`IndexError`), and apply the `Fn::Base64` wrapper when the sentinel was
seen. -/
def finishParse (useB64 : Bool) (r : Except PyErr Stack) : Except PyErr Val :=
  match r with
  | .error e => .error e
  | .ok st =>
    if st.length > 1 then .error (.constructorError "Unbalanced braces in template")
    else
      match st with
      | [] => .error .indexError
      | cur :: _ =>
        let result := normalizeNode cur
        .ok (if useB64 then .dict [("Fn::Base64", result)] else result)

/-- `StringParser.parse_string`: split into lines (keeping terminators),
detect the `__base64__` sentinel on the first line (`IndexError` on an
empty string), run the line loop, and finish. -/
def parseStringE (src : String) : Except PyErr Val :=
  match splitLinesC src.data with
  | [] => .error .indexError
  | l0 :: restLines =>
    let useB64 : Bool := stripPy l0 == "__base64__".data
    finishParse useB64
      (parseLinesResult (if useB64 then restLines else l0 :: restLines))

/-! ## The compiler driver

Embedded from `cloudpuff/templates/compiler.py` (`TemplateCompiler`).
Ordered Python dicts are association lists.  `compileLoad` covers
`load_string` from the point where the reader has produced its document
tree; the reader itself (cloudpuff/templates/reader.py) is not among the
sources and is modelled from the spec at the call sites of the claims. -/

abbrev Entries := List (String × Val)

/-- Ordered-dict key lookup. -/
def lookupE : Entries → String → Option Val
  | [], _ => none
  | (k2, v) :: rest, k => if k2 = k then some v else lookupE rest k

/-- Ordered-dict key removal (`dict.pop` / `del`); keys are unique in any
dict the Python code builds. -/
def eraseE (es : Entries) (k : String) : Entries :=
  es.filter (fun e => e.1 != k)

/-- Ordered-dict assignment: replace in place when the key exists,
append otherwise. -/
def setE : Entries → String → Val → Entries
  | [], k, v => [(k, v)]
  | (k2, v2) :: rest, k, v =>
    if k2 = k then (k, v) :: rest else (k2, v2) :: setE rest k v

/-- `dict.update`: assign every entry of the second dict in order. -/
def updateE (es news : Entries) : Entries :=
  news.foldl (fun acc kv => setE acc kv.1 kv.2) es

mutual

/-- Whether a value contains an inline `Fn::If` serialization anywhere. -/
def containsFnIf : Val → Bool
  | .s _ => false
  | .varRef _ => false
  | .pyObj => false
  | .list xs => containsFnIfList xs
  | .varsList xs => containsFnIfList xs
  | .uncollapsible xs => containsFnIfList xs
  | .dict es => containsFnIfEntries es
termination_by structural v => v

/-- `containsFnIf` over a list. -/
def containsFnIfList : List Val → Bool
  | [] => false
  | v :: rest => containsFnIf v || containsFnIfList rest
termination_by structural l => l

/-- `containsFnIf` over dict entries (a key `Fn::If` counts). -/
def containsFnIfEntries : List (String × Val) → Bool
  | [] => false
  | (k, v) :: rest => k = "Fn::If" || containsFnIf v || containsFnIfEntries rest
termination_by structural l => l

end

mutual

/-- The rewriting walk of condition hoisting: every `Fn::If` entry has its
first argument (the condition expression) moved into the accumulated
named-conditions map under a fresh generated name and replaced by that
name; the counter threads left to right. -/
def hoistCore : Val → Nat → Val × List (String × Val) × Nat
  | .dict es, c =>
    let r := hoistEntries es c
    (.dict r.1, r.2.1, r.2.2)
  | .list xs, c =>
    let r := hoistList xs c
    (.list r.1, r.2.1, r.2.2)
  | .varsList xs, c =>
    let r := hoistList xs c
    (.varsList r.1, r.2.1, r.2.2)
  | .uncollapsible xs, c =>
    let r := hoistList xs c
    (.uncollapsible r.1, r.2.1, r.2.2)
  | v, c => (v, [], c)
termination_by structural v _ => v

/-- `hoistCore` over a list. -/
def hoistList : List Val → Nat → List Val × List (String × Val) × Nat
  | [], c => ([], [], c)
  | v :: rest, c =>
    let r1 := hoistCore v c
    let r2 := hoistList rest r1.2.2
    (r1.1 :: r2.1, r1.2.1 ++ r2.2.1, r2.2.2)
termination_by structural xs _ => xs

/-- `hoistCore` over dict entries, rewriting `Fn::If` entries. -/
def hoistEntries : List (String × Val) → Nat →
    List (String × Val) × List (String × Val) × Nat
  | [], c => ([], [], c)
  | (k, v) :: rest, c =>
    if k = "Fn::If" then
      match v with
      | .uncollapsible (cond :: args) =>
        let name := "InlineIfCondition" ++ toString c
        let r1 := hoistList args (c + 1)
        let r2 := hoistEntries rest r1.2.2
        ((k, .uncollapsible (.s name :: r1.1)) :: r2.1,
         (name, cond) :: r1.2.1 ++ r2.2.1, r2.2.2)
      | .list (cond :: args) =>
        let name := "InlineIfCondition" ++ toString c
        let r1 := hoistList args (c + 1)
        let r2 := hoistEntries rest r1.2.2
        ((k, .list (.s name :: r1.1)) :: r2.1,
         (name, cond) :: r1.2.1 ++ r2.2.1, r2.2.2)
      | other =>
        let r1 := hoistCore other c
        let r2 := hoistEntries rest r1.2.2
        ((k, r1.1) :: r2.1, r1.2.1 ++ r2.2.1, r2.2.2)
    else
      let r1 := hoistCore v c
      let r2 := hoistEntries rest r1.2.2
      ((k, r1.1) :: r2.1, r1.2.1 ++ r2.2.1, r2.2.2)
termination_by structural es _ => es

end

/-- Modelled from the spec: `TemplateState.process_tree` with
`resolve_if_conditions=True` (state.py is not among the sources) rewrites
every inline `If` serialization into a reference to a synthesized named
condition, inserting the condition expression into the named-conditions
map under a generated unique name (§4.2); a tree without any `Fn::If` is
returned unchanged with no conditions accumulated. -/
def hoistIfConditions (v : Val) (c : Nat) : Val × List (String × Val) × Nat :=
  if containsFnIf v then hoistCore v c else (v, [], c)

/-- Python `str.lower()` (ASCII, as `Required` values are ASCII flags). -/
def lowerStr (s : String) : String := String.mk (s.data.map Char.toLower)

/-- `_post_process_params` over the `Parameters` entries: each parameter
mapping has its `LookupFromStack` entry popped (recorded when truthy) and
its `Required` entry popped (defaulting to `'true'`), recording whether it
lower-cases to `'true'`.  A non-mapping parameter, or a `Required` value
without `.lower()`, raises `AttributeError`. -/
def ppParams : List (String × Val) →
    Except PyErr (List (String × Val) × List (String × Val) × List (String × Bool))
  | [] => .ok ([], [], [])
  | (name, p) :: rest =>
    match p with
    | .dict pes =>
      let lfs := lookupE pes "LookupFromStack"
      let pes1 := eraseE pes "LookupFromStack"
      let req := (lookupE pes1 "Required").getD (.s "true")
      let pes2 := eraseE pes1 "Required"
      match req with
      | .s rs =>
        match ppParams rest with
        | .error e => .error e
        | .ok r =>
          .ok ((name, .dict pes2) :: r.1,
               (match lfs with
                | some v => if valTruthy v then (name, v) :: r.2.1 else r.2.1
                | none => r.2.1),
               (name, lowerStr rs == "true") :: r.2.2)
      | _ => .error .attributeError
    | _ => .error .attributeError

/-- `in` on a Python string is a substring test. -/
def strContains (hay needle : String) : Bool :=
  (hay.splitOn needle).length > 1

/-- One entry of the `ami_metadata` list collected by
`_scan_cloudpuff_metadata` (the unused `resource` backreference is
omitted). -/
structure AmiInfo where
  nameFormat : Val
  resourceName : String
  previousAmi : Option Val
deriving Repr

/-- The collection loop of `_scan_cloudpuff_metadata`: keep every mapping
resource of type `AWS::EC2::Instance` whose `Metadata` carries a
`CloudPuff` block with an `AMINameFormat`.  Membership tests against
non-mapping `Metadata`/`CloudPuff` values follow Python `in` (substring
for strings, element test for lists, `TypeError` otherwise), and indexing
them raises `TypeError`. -/
def scanAmiResources : List (String × Val) → Except PyErr (List AmiInfo)
  | [] => .ok []
  | (rn, r) :: rest =>
    match r with
    | .dict res =>
      match lookupE res "Type" with
      | some (.s ty) =>
        if ty = "AWS::EC2::Instance" then
          match (lookupE res "Metadata").getD (.dict []) with
          | .dict mes =>
            match lookupE mes "CloudPuff" with
            | some (.dict cps) =>
              match lookupE cps "AMINameFormat" with
              | some fmt =>
                match scanAmiResources rest with
                | .error e => .error e
                | .ok restInfos =>
                  .ok ({ nameFormat := fmt, resourceName := rn,
                         previousAmi := lookupE cps "PreviousAMI" } :: restInfos)
              | none => scanAmiResources rest
            | some (.s m) =>
              if strContains m "AMINameFormat" then .error .typeError
              else scanAmiResources rest
            | some (.list xs) =>
              if xs.any (fun v => match v with | .s t => t = "AMINameFormat" | _ => false)
              then .error .typeError else scanAmiResources rest
            | some _ => .error .typeError
            | none => scanAmiResources rest
          | .s m =>
            if strContains m "CloudPuff" then .error .typeError
            else scanAmiResources rest
          | .list xs =>
            if xs.any (fun v => match v with | .s t => t = "CloudPuff" | _ => false)
            then .error .typeError else scanAmiResources rest
          | _ => .error .typeError
        else scanAmiResources rest
      | _ => scanAmiResources rest
    | _ => scanAmiResources rest

/-- One record of `ami_outputs`: the resource name and the three
synthesized output key names. -/
structure AmiOut where
  resourceName : String
  previousAmiKey : String
  instanceIdKey : String
  nameFormatKey : String
deriving Repr

/-- The output-synthesis loop of `_scan_cloudpuff_metadata`: per collected
resource, an instance-id output and a name-format output always, and a
previous-AMI output only when the metadata carried `PreviousAMI`; the
`ami_outputs` record always names all three keys. -/
def buildAmiOutputs : List AmiInfo → Entries × List AmiOut
  | [] => ([], [])
  | info :: rest =>
    let rn := info.resourceName
    let prevK := "CloudPuff" ++ rn ++ "PreviousAMI"
    let instK := "CloudPuff" ++ rn ++ "InstanceID"
    let fmtK := "CloudPuff" ++ rn ++ "AMINameFormat"
    let outs : Entries :=
      [(instK, .dict [("Description", .s ("Instance ID for " ++ rn)),
                      ("Value", .dict [("Ref", .s rn)])]),
       (fmtK, .dict [("Description", .s ("Name format for the AMI for " ++ rn)),
                     ("Value", info.nameFormat)])]
      ++ (match info.previousAmi with
          | some pv =>
            [(prevK, .dict [("Description", .s ("Previous AMI ID created for " ++ rn)),
                            ("Value", pv)])]
          | none => [])
    let r := buildAmiOutputs rest
    (outs ++ r.1,
     { resourceName := rn, previousAmiKey := prevK,
       instanceIdKey := instK, nameFormatKey := fmtK } :: r.2)

/-- `_scan_cloudpuff_metadata`: collect the AMI metadata from
`doc['Resources']`, and when compiling for AMIs and something was
collected, merge the synthesized outputs into `doc['Outputs']`
(`setdefault` + `update`) and fill `ami_outputs`. -/
def scanCloudpuffMetadata (doc : Entries) (forAmis : Bool) :
    Except PyErr (Entries × List AmiOut) :=
  match lookupE doc "Resources" with
  | none => .error (.keyError "Resources")
  | some rv =>
    match rv with
    | .dict res =>
      match scanAmiResources res with
      | .error e => .error e
      | .ok infos =>
        if !infos.isEmpty && forAmis then
          let built := buildAmiOutputs infos
          match (lookupE doc "Outputs").getD (.dict []) with
          | .dict oes =>
              .ok (setE doc "Outputs" (.dict (updateE oes built.1)), built.2)
          | _ => .error .attributeError
        else .ok (doc, [])
    | _ => .error .attributeError

/-- The five standard target sections, in the order `load_string` copies
them. -/
def SECTIONS : List String :=
  ["Parameters", "Mappings", "Conditions", "Resources", "Outputs"]

/-- The observable result of `TemplateCompiler.load_string`: the compiled
document and the three collaborator attributes. -/
structure CompileResult where
  doc : Entries
  stackParamLookups : Entries
  requiredParams : List (String × Bool)
  amiOutputs : List AmiOut
deriving Repr

/-- The header-building start of `load_string`: the fixed
`AWSTemplateFormatVersion`, then the `Description` taken from `Meta`
(with ` [vVersion]` appended when a version is present).  A missing
`Meta` raises `KeyError`; a non-mapping `Meta` fails at
`meta.setdefault` with `AttributeError`; appending the version tag to a
non-string description raises `TypeError` (a non-string version is also
modelled as `TypeError`, standing in for Python interpolating its
`repr`). -/
def compileHeaderDoc (readerDoc : Entries) : Except PyErr Entries :=
  match lookupE readerDoc "Meta" with
  | none => .error (.keyError "Meta")
  | some meta =>
    match meta with
    | .dict metaEs =>
      match lookupE metaEs "Description" with
      | none => .ok [("AWSTemplateFormatVersion", .s "2010-09-09")]
      | some d =>
        match lookupE metaEs "Version" with
        | none =>
            .ok [("AWSTemplateFormatVersion", .s "2010-09-09"), ("Description", d)]
        | some (.s ver) =>
          match d with
          | .s ds =>
              .ok [("AWSTemplateFormatVersion", .s "2010-09-09"),
                   ("Description", .s (ds ++ " [v" ++ ver ++ "]"))]
          | _ => .error .typeError
        | some _ => .error .typeError
    | _ => .error .attributeError

/-- The section-copy loop of `load_string`: each of the five sections is
taken from the reader's document, defaulting to an empty mapping. -/
def copySections (readerDoc doc : Entries) : Entries :=
  SECTIONS.foldl (fun d sec => d ++ [(sec, (lookupE readerDoc sec).getD (.dict []))]) doc

/-- The condition-hoisting stage of `load_string`: `process_tree` with
condition resolution over `Conditions` then `Resources`, then merging the
accumulated `if_conditions` into the `Conditions` section when any were
found. -/
def hoistStage (doc : Entries) : Except PyErr Entries :=
  let hc := hoistIfConditions ((lookupE doc "Conditions").getD (.dict [])) 0
  let doc3 := setE doc "Conditions" hc.1
  let hr := hoistIfConditions ((lookupE doc3 "Resources").getD (.dict [])) hc.2.2
  let doc4 := setE doc3 "Resources" hr.1
  let ifConds := hc.2.1 ++ hr.2.1
  if ifConds.isEmpty then .ok doc4
  else
    match lookupE doc4 "Conditions" with
    | some (.dict ces) => .ok (setE doc4 "Conditions" (.dict (updateE ces ifConds)))
    | some _ => .error .attributeError
    | none => .error (.keyError "Conditions")

/-- The cleanup loop of `load_string`: delete every one of the five
sections whose value is falsy. -/
def dropEmptySections (doc : Entries) : Except PyErr Entries :=
  SECTIONS.foldlM
    (fun d sec =>
      match lookupE d sec with
      | some v => .ok (if valTruthy v then d else eraseE d sec)
      | none => .error (.keyError sec))
    doc

/-- `TemplateCompiler.load_string` from the point where the reader has
produced its document tree `readerDoc` (modelled from the spec:
`TemplateReader` is not among the sources; §4.3 fixes that a default
document's top-level mapping becomes the reader's output tree): build the
header and `Meta`-derived fields, copy the five sections, hoist inline
conditions, post-process parameters, scan CloudPuff metadata, and drop
the sections left falsy. -/
def compileLoad (readerDoc : Entries) (forAmis : Bool) :
    Except PyErr CompileResult :=
  match compileHeaderDoc readerDoc with
  | .error e => .error e
  | .ok doc1 =>
    let doc2 := copySections readerDoc doc1
    match hoistStage doc2 with
    | .error e => .error e
    | .ok doc5 =>
      match lookupE doc5 "Parameters" with
      | some (.dict paramEs) =>
        (match ppParams paramEs with
         | .error e => .error e
         | .ok pp =>
           let doc6 := setE doc5 "Parameters" (.dict pp.1)
           match scanCloudpuffMetadata doc6 forAmis with
           | .error e => .error e
           | .ok scanned =>
             match dropEmptySections scanned.1 with
             | .error e => .error e
             | .ok doc8 =>
               .ok { doc := doc8, stackParamLookups := pp.2.1,
                     requiredParams := pp.2.2, amiOutputs := scanned.2 })
      | some _ => .error .attributeError
      | none => .error (.keyError "Parameters")

/-! ## Derived notions used by the claims -/

/-- `isinstance(f, ElseBlockFunction)`. -/
def isElseFrame : SNode → Bool
  | .elseBlk _ _ _ _ => true
  | _ => false

/-- No frame anywhere on the stack is an `ElseBlockFunction`. -/
def stackNoElse (st : Stack) : Prop :=
  ∀ f ∈ st, isElseFrame f = false

mutual

/-- Nesting depth of `Fn::If` mappings in a serialized value. -/
def fnIfDepth : Val → Nat
  | .s _ => 0
  | .varRef _ => 0
  | .pyObj => 0
  | .list xs => fnIfDepthList xs
  | .varsList xs => fnIfDepthList xs
  | .uncollapsible xs => fnIfDepthList xs
  | .dict es => fnIfDepthEntries es
termination_by structural v => v

/-- `fnIfDepth` over a list (maximum over the elements). -/
def fnIfDepthList : List Val → Nat
  | [] => 0
  | v :: rest => max (fnIfDepth v) (fnIfDepthList rest)
termination_by structural l => l

/-- `fnIfDepth` over dict entries: an `Fn::If` key adds one level above
its value. -/
def fnIfDepthEntries : List (String × Val) → Nat
  | [] => 0
  | (k, v) :: rest =>
      max ((if k = "Fn::If" then 1 else 0) + fnIfDepth v) (fnIfDepthEntries rest)
termination_by structural l => l

end

/-! ### The inline conditional chain family (claim C1)

`chainSrc n` is the template text
`<% If (c) { %> \n t \n (<% ElseIf (c) { %> \n t \n)^n <% \x7d %>`:
an `If`, `n` `ElseIf` links each followed by one content line, and a
single close marker. -/

/-- The characters of the `If` line before its newline. -/
def ifBody : List Char := "<% If (c) \x7b %>".data

/-- The characters of one content line before its newline. -/
def tBody : List Char := "t".data

/-- The characters of an `ElseIf` line before its newline. -/
def elseIfBody : List Char := "<% ElseIf (c) \x7b %>".data

/-- The characters of the final close-marker line (no trailing newline). -/
def closeBody : List Char := "<% \x7d %>".data

/-- The characters of the `n` `ElseIf`-plus-content links followed by the
close marker. -/
def midChars : Nat → List Char
  | 0 => closeBody
  | n + 1 => elseIfBody ++ '\n' :: (tBody ++ '\n' :: midChars n)

/-- The full chain source text with `n` `ElseIf` occurrences. -/
def chainChars (n : Nat) : List Char :=
  ifBody ++ '\n' :: (tBody ++ '\n' :: midChars n)

/-- The chain as a string (input to `parseStringE`). -/
def chainSrc (n : Nat) : String := String.mk (chainChars n)

/-- The parsed condition parameter of every link. -/
def cVal : Val := .s "c"

/-- The parsed content line of every link. -/
def tNode : SNode := .val (.s "t\n")

/-- The line list the chain splits into, after the first two lines. -/
def chainMidLines : Nat → List (List Char)
  | 0 => [closeBody]
  | n + 1 => (elseIfBody ++ ['\n']) :: (tBody ++ ['\n']) :: chainMidLines n

/-- The stack below the currently open chain link: `j` ancestor `If`
frames (the oldest with `pop_count` 1 and a clear `_is_elseif` flag, the
rest rewritten `ElseIf`s), each already switched to its false bucket and
holding its one true-content line, above the bare root item. -/
def belowStack : Nat → Stack
  | 0 => [.root [] 1]
  | j + 1 => .ifBlk "If" [cVal] (j != 0) true [tNode] [] (j + 1) :: belowStack j

/-- The full stack while the `j`-th chain link is open with its content
line consumed. -/
def chainStack (j : Nat) : Stack :=
  .ifBlk "If" [cVal] (j != 0) false [tNode] [] (j + 1) :: belowStack j

/-- Folding the close-marker pops: each pop appends the finished child
into the false bucket of the next enclosing `If`. -/
def foldChain : Nat → SNode → SNode
  | 0, cur => cur
  | j + 1, cur =>
      foldChain j (.ifBlk "If" [cVal] (j != 0) true [tNode] [cur] (j + 1))

/-- One serialized chain link wrapped around a false-branch value. -/
def wrapIf (v : Val) : Val :=
  .dict [("Fn::If", .uncollapsible [cVal, .s "t\n", v])]

/-- The expected serialization of the chain with `n` `ElseIf`s: `n + 1`
nested `Fn::If` mappings, the innermost without a false branch. -/
def nestIf : Nat → Val
  | 0 => .dict [("Fn::If", .uncollapsible [cVal, .s "t\n"])]
  | n + 1 => wrapIf (nestIf n)

/-! ### Parameter post-processing in claim form (claim C7) -/

/-- What `_post_process_params` leaves of one parameter mapping. -/
def stripParamEntry : String × Val → String × Val
  | (n, .dict pes) => (n, .dict (eraseE (eraseE pes "LookupFromStack") "Required"))
  | e => e

/-- The `stack_param_lookups` record contributed by one parameter. -/
def lkEntry : String × Val → Option (String × Val)
  | (n, .dict pes) =>
    match lookupE pes "LookupFromStack" with
    | some v => if valTruthy v then some (n, v) else none
    | none => none
  | _ => none

/-- The `required_params` record contributed by one parameter. -/
def reqEntry : String × Val → String × Bool
  | (n, .dict pes) =>
    (n, match (lookupE (eraseE pes "LookupFromStack") "Required").getD (.s "true") with
        | .s rs => lowerStr rs == "true"
        | _ => false)
  | (n, _) => (n, false)

/-! ## Theorems -/

/-- C9: on the empty input string, `parse_string` splits into an empty
line list and indexing its first line raises `IndexError`; the public
entry point is not total over all strings, and the empty scalar is an
unhandled crash rather than a described syntax error. -/
theorem parse_string_empty_input_raises :
    parseStringE "" = .error .indexError := rfl

/-- C3 counterexample: on an input with more close markers than open
blocks, `parse_string` does not raise a syntax error naming the
construct: the surplus close marker empties the stack mid-input, the next
line silently pushes a fresh bare item (discarding the earlier content),
and parsing succeeds. -/
theorem surplus_close_marker_not_an_error :
    parseStringE "x<% \x7d %>\ny" = .ok (.s "y") := rfl

/-- C3 amended: at end of input, `parse_string` raises the
`ConstructorError` naming the construct (`Unbalanced braces in template`)
exactly when open frames remain on the stack; a surplus of close markers
instead either leaves an empty stack, which raises a bare `IndexError`
at the final `stack.current`, or (mid-input) is silently absorbed. -/
theorem unbalanced_braces_error_condition (src : String) (l0 : List Char)
    (ls : List (List Char)) (st : Stack)
    (hsplit : splitLinesC src.data = l0 :: ls)
    (hrun : parseLinesResult
        (if stripPy l0 == "__base64__".data then ls else l0 :: ls) = .ok st) :
    (st.length > 1 →
      parseStringE src = .error (.constructorError "Unbalanced braces in template")) ∧
    (st = [] → parseStringE src = .error .indexError) := by
  have hps : parseStringE src = finishParse (stripPy l0 == "__base64__".data)
      (parseLinesResult (if stripPy l0 == "__base64__".data then ls else l0 :: ls)) := by
    unfold parseStringE
    rw [hsplit]
  rw [hps, hrun]
  constructor
  · intro hl
    simp [finishParse, hl]
  · intro he
    subst he
    simp [finishParse]

/-- Witness for the amended C3: an unclosed `If` block leaves two frames
on the stack, and parsing reports the unbalanced-braces syntax error. -/
theorem unbalanced_braces_error_condition_witness :
    parseStringE "<% If (a) \x7b %>\nx\n" =
      .error (.constructorError "Unbalanced braces in template") :=
  (unbalanced_braces_error_condition "<% If (a) \x7b %>\nx\n"
    "<% If (a) \x7b %>\n".data ["x\n".data]
    [.ifBlk "If" [.s "a"] false false [.val (.s "x\n")] [] 1, .root [] 1]
    rfl rfl).1 (by decide)

/-- C4 counterexample: an `ElseIf` whose enclosing frame is a generic
block function raises no error (the misplacement check in
`IfBlockFunction.validate` tests the `_is_elseif` flag, which is never
set at validation time): the `ElseIf` is accepted as an ordinary nested
block and still serializes as `Fn::If`. -/
theorem misplaced_elseif_not_an_error :
    parseStringE "<% Foo \x7b %>x<% ElseIf (b) \x7b %>y<% \x7d %><% \x7d %>" =
      .ok (.dict [("Fn::Foo", .uncollapsible
        [.s "x", .dict [("Fn::If", .uncollapsible [.s "b", .s "y"])], .s ""])]) := rfl

/-- C5 counterexample: when the false bucket normalizes to a
`VarsStringsList` (here two unresolved variables with interleaved literal
fragments), its elements are spliced into the `Fn::If` argument list
rather than appended as one false-result: the serialized call has six
arguments, not the claimed `[condition, true-result, false-result]`. -/
theorem if_false_branch_splices :
    parseStringE "<% If (a) \x7b %>\nt\n<% Else \x7b %>\n$$x$$y\n<% \x7d %>" =
      .ok (.dict [("Fn::If", .uncollapsible
        [.s "a", .s "t\n", .varRef "x", .s "", .varRef "y", .s "\n"])]) ∧
    ([Val.s "a", Val.s "t\n", Val.varRef "x", Val.s "", Val.varRef "y",
      Val.s "\n"] : List Val).length = 6 :=
  ⟨rfl, rfl⟩

/-- C2: finalizing an accumulated content list collapses a length-1
sequence to its single element; a longer sequence becomes
`{"Fn::Join": ["", contents]}` unless it was marked as a
`VarsStringsList` (it contains an unresolved variable reference), in
which case it passes through unchanged and is never string-joined. -/
theorem normalize_content_collapse (xs : List SNode) :
    (∀ y, normalizeEach xs = [y] → normalizeContents xs = y) ∧
    ((normalizeEach xs).length > 1 → (normalizeEach xs).any isVarRefVal = false →
      normalizeContents xs =
        .dict [("Fn::Join", .list [.s "", .list (normalizeEach xs)])]) ∧
    ((normalizeEach xs).length > 1 → (normalizeEach xs).any isVarRefVal = true →
      normalizeContents xs = .varsList (normalizeEach xs)) := by
  have hrw : normalizeContents xs =
      collapseListVal (normalizeVarsList (normalizeEach xs)) := rfl
  rw [hrw]
  generalize normalizeEach xs = ys
  rcases ys with _ | ⟨a, _ | ⟨b, t⟩⟩
  · refine ⟨fun y hy => by simp at hy, fun hl => by simp at hl,
      fun hl => by simp at hl⟩
  · refine ⟨fun y hy => ?_, fun hl => by simp at hl, fun hl => by simp at hl⟩
    obtain rfl : a = y := by injection hy
    by_cases hv : isVarRefVal a = true <;>
      simp [normalizeVarsList, collapseListVal, hv]
  · refine ⟨fun y hy => by simp at hy, fun _ hany => ?_, fun _ hany => ?_⟩
    · simp [normalizeVarsList, hany, collapseListVal]
    · simp [normalizeVarsList, hany, collapseListVal]

/-- Witness for C2: two literal lines become a join-of-literals wrapper. -/
theorem normalize_content_collapse_witness :
    normalizeContents [tNode, tNode] =
      .dict [("Fn::Join", .list [.s "", .list [.s "t\n", .s "t\n"]])] :=
  (normalize_content_collapse [tNode, tNode]).2.1 (by decide) (by decide)

/-- C5 amended: an inline conditional whose true bucket normalizes to a
single string serializes to `{"Fn::If": params ++ [true-result]}` when
the false bucket's normalization is falsy (empty list, empty string), and
to `{"Fn::If": params ++ [true-result, false-result]}` when the false
result is a non-empty string; a false bucket normalizing to a
`VarsStringsList` is spliced element-wise into the argument list instead
of being appended as a single false-result. -/
theorem if_serialization_shape (n : String) (ps : List Val) (ie inF : Bool)
    (tC fC : List SNode) (pc : Nat) (ts : String)
    (ht : normalizeContents tC = .s ts) :
    (valTruthy (normalizeContents fC) = false →
      normalizeNode (.ifBlk n ps ie inF tC fC pc) =
        .dict [("Fn::If", .uncollapsible (ps ++ [.s ts]))]) ∧
    (∀ fs, normalizeContents fC = .s fs → fs ≠ "" →
      normalizeNode (.ifBlk n ps ie inF tC fC pc) =
        .dict [("Fn::If", .uncollapsible (ps ++ [.s ts, .s fs]))]) ∧
    (∀ vs, normalizeContents fC = .varsList vs → vs ≠ [] →
      normalizeNode (.ifBlk n ps ie inF tC fC pc) =
        .dict [("Fn::If", .uncollapsible (ps ++ (.s ts :: vs)))]) := by
  have hedef : normalizeNode (.ifBlk n ps ie inF tC fC pc) =
      .dict [("Fn::If", .uncollapsible (ps ++ (spliceVal (normalizeContents tC) ++
        (if valTruthy (normalizeContents fC) then spliceVal (normalizeContents fC)
         else []))))] := rfl
  rw [hedef, ht]
  refine ⟨fun hf => ?_, fun fs hfs hne => ?_, fun vs hvs hne => ?_⟩
  · rw [hf]
    simp [spliceVal]
  · rw [hfs]
    have hv : valTruthy (Val.s fs) = true := by
      have hf : fs.isEmpty = false := by
        cases h : fs.isEmpty
        · rfl
        · exact absurd ((String.isEmpty_iff fs).mp h) hne
      simp [valTruthy, hf]
    simp [hv, spliceVal]
  · rw [hvs]
    have hv : valTruthy (Val.varsList vs) = true := by
      simp [valTruthy, hne]
    simp [hv, spliceVal]

/-- Witness for the amended C5: an `If` with content and an empty false
bucket omits the false branch entirely. -/
theorem if_serialization_shape_witness :
    normalizeNode (.ifBlk "If" [cVal] false false [tNode] [] 1) =
      .dict [("Fn::If", .uncollapsible [cVal, .s "t\n"])] :=
  (if_serialization_shape "If" [cVal] false false [tNode] [] 1 "t\n" rfl).1 rfl

/-- C4 amended: inside an open `If` frame, content is routed to the true
bucket until the frame switches to the false bucket; adding an `Else` or
`ElseIf` with an empty true bucket is an error; adding one while the
false bucket already holds content is an error (the code tests the false
bucket's contents, not whether an `Else` was seen, so consecutive
`Else`s with nothing between them pass); an `Else` whose current frame is
not an `If`/`ElseIf` frame is an error, but a misplaced `ElseIf` is
accepted as an ordinary block function (its validation check is dead
code). -/
theorem if_else_error_conditions
    (n2 : String) (ps2 : List Val) (ie inF : Bool) (tC fC : List SNode)
    (pc : Nat) (content : SNode) (cn : String)
    (hfn : isFunctionNode content = true)
    (hname : funcNameOf content = some cn)
    (hcn : cn = "Else" ∨ cn = "ElseIf") :
    (tC = [] → addContentCore (.ifBlk n2 ps2 ie inF tC fC pc) content =
        .error (.constructorError
          ("Found " ++ cn ++ " without a \"true\" value in the If"))) ∧
    (tC ≠ [] → fC ≠ [] → addContentCore (.ifBlk n2 ps2 ie inF tC fC pc) content =
        .error (.constructorError ("Found " ++ cn ++ " after an Else"))) ∧
    (cn = "Else" → tC ≠ [] → fC = [] →
        addContentCore (.ifBlk n2 ps2 ie inF tC fC pc) content =
          .ok (.ifBlk n2 ps2 ie true tC fC pc, content, false, false)) ∧
    (∀ v, appendCur (.ifBlk n2 ps2 ie false tC fC pc) (.val v) =
        .ifBlk n2 ps2 ie false (tC ++ [.val v]) fC pc) ∧
    (∀ v, appendCur (.ifBlk n2 ps2 ie true tC fC pc) (.val v) =
        .ifBlk n2 ps2 ie true tC (fC ++ [.val v]) pc) ∧
    (∀ (fuel : Nat) (rest : Stack) (top : SNode) (opened : Bool),
        isIfFrame top = false →
        handleFunc (fuel + 2) (top :: rest) "Else" none opened =
          .error (.constructorError "Found Else without a matching If")) := by
  rcases hcn with rfl | rfl <;>
  · refine ⟨?_, ?_, ?_, ?_, ?_, ?_⟩
    · intro htc
      subst htc
      simp [addContentCore, hname, hfn]
    · intro htc hfc
      have h1 : tC.isEmpty = false := by
        cases tC
        · exact absurd rfl htc
        · rfl
      have h2 : fC.isEmpty = false := by
        cases fC
        · exact absurd rfl hfc
        · rfl
      simp [addContentCore, hname, hfn, h1, h2]
    · intro hel htc hfc
      first
        | exact absurd hel (by decide)
        | (subst hfc
           have h1 : tC.isEmpty = false := by
             cases tC
             · exact absurd rfl htc
             · rfl
           simp [addContentCore, hname, hfn, h1])
    · intro v
      simp [appendCur]
    · intro v
      simp [appendCur]
    · intro fuel rest top opened hni
      simp [handleFunc, parseNormParams, hni]

/-- Witness for the amended C4: an `Else` added to an `If` with an empty
true bucket raises the missing-true-value error. -/
theorem if_else_error_conditions_witness :
    addContentCore (.ifBlk "If" [] false false [] [] 1) (.elseBlk "Else" [] [] 1) =
      .error (.constructorError "Found Else without a \"true\" value in the If") :=
  (if_else_error_conditions "If" [] false false [] [] 1 (.elseBlk "Else" [] [] 1)
    "Else" rfl rfl (Or.inl rfl)).1 rfl

/-- `eraseE` on a cons. -/
theorem eraseE_cons (k1 : String) (v : Val) (rest : Entries) (k : String) :
    eraseE ((k1, v) :: rest) k =
      if k1 = k then eraseE rest k else (k1, v) :: eraseE rest k := by
  by_cases h : k1 = k <;> simp [eraseE, List.filter_cons, h]

/-- Popping a key removes it from lookup. -/
theorem lookupE_eraseE_self (es : Entries) (k : String) :
    lookupE (eraseE es k) k = none := by
  induction es with
  | nil => rfl
  | cons e rest ih =>
    obtain ⟨k1, v1⟩ := e
    rw [eraseE_cons]
    by_cases h : k1 = k
    · simpa [h] using ih
    · simpa [lookupE, h] using ih

/-- Popping one key leaves the lookup of another unchanged. -/
theorem lookupE_eraseE_ne (es : Entries) (k k2 : String) (h : k2 ≠ k) :
    lookupE (eraseE es k2) k = lookupE es k := by
  induction es with
  | nil => rfl
  | cons e rest ih =>
    obtain ⟨k1, v1⟩ := e
    rw [eraseE_cons]
    by_cases h1 : k1 = k2
    · have hk : k1 ≠ k := by
        intro hh
        exact h (by rw [← h1]; exact hh)
      rw [if_pos h1, ih]
      simp [lookupE, hk]
    · rw [if_neg h1]
      by_cases h2 : k1 = k <;> simp [lookupE, h2, ih]

/-- Erasing a key that is not present is the identity. -/
theorem eraseE_of_lookup_none (es : Entries) (k : String)
    (h : lookupE es k = none) : eraseE es k = es := by
  induction es with
  | nil => rfl
  | cons e rest ih =>
    obtain ⟨k1, v1⟩ := e
    rw [eraseE_cons]
    by_cases h1 : k1 = k
    · rw [lookupE, if_pos h1] at h
      cases h
    · rw [lookupE, if_neg h1] at h
      simp [h1, ih h]

/-- C7 counterexample: a parameter whose `LookupFromStack` value is falsy
(here the empty string) has the entry removed but not recorded: after
compilation `stack_param_lookups` is empty even though the parameter
carried the directive. -/
theorem lookup_from_stack_falsy_unrecorded :
    compileLoad [("Meta", .dict [("Description", .s "d")]),
      ("Parameters", .dict [("p", .dict [("LookupFromStack", .s "")])]),
      ("Resources", .dict [("key", .s "value")])] false =
    .ok { doc := [("AWSTemplateFormatVersion", .s "2010-09-09"),
                  ("Description", .s "d"),
                  ("Parameters", .dict [("p", .dict [])]),
                  ("Resources", .dict [("key", .s "value")])],
          stackParamLookups := [],
          requiredParams := [("p", true)],
          amiOutputs := [] } := rfl

/-- C7 amended: `_post_process_params` strips `LookupFromStack` and
`Required` from every parameter mapping; a `LookupFromStack` value is
recorded in `stack_param_lookups` only when it is truthy (a falsy value
is removed silently); `required_params` records, for every parameter,
whether the `Required` value (defaulting to `'true'` when absent)
lower-cases to `'true'`; and no processed parameter mapping retains
either key. -/
theorem post_process_params_spec (es : List (String × Val))
    (wf : ∀ e ∈ es, ∃ pes rs, e.2 = Val.dict pes ∧
      ((lookupE (eraseE pes "LookupFromStack") "Required").getD (.s "true")) = .s rs) :
    ppParams es = .ok (es.map stripParamEntry, es.filterMap lkEntry, es.map reqEntry) ∧
    ∀ e ∈ es.map stripParamEntry, ∀ pes, e.2 = Val.dict pes →
      lookupE pes "LookupFromStack" = none ∧ lookupE pes "Required" = none := by
  constructor
  · induction es with
    | nil => rfl
    | cons e rest ih =>
      obtain ⟨name, p⟩ := e
      obtain ⟨pes, rs, hp, hr⟩ := wf (name, p) (by simp)
      have hrest := ih (fun e2 he2 => wf e2 (by simp [he2]))
      simp only at hp
      subst hp
      rcases hl : lookupE pes "LookupFromStack" with _ | v
      · simp [ppParams, hr, hrest, stripParamEntry, reqEntry,
          List.filterMap_cons, lkEntry, hl]
      · by_cases ht : valTruthy v = true <;>
          simp [ppParams, hr, hrest, stripParamEntry, reqEntry,
            List.filterMap_cons, lkEntry, hl, ht]
  · intro e he pes hpes
    obtain ⟨⟨name0, p0⟩, hmem, heq⟩ := List.mem_map.mp he
    obtain ⟨pes0, rs0, hp0, _⟩ := wf (name0, p0) hmem
    simp only at hp0
    subst hp0
    rw [stripParamEntry] at heq
    have hpes2 : pes = eraseE (eraseE pes0 "LookupFromStack") "Required" := by
      have := congrArg Prod.snd heq
      simp at this
      rw [hpes] at this
      injection this.symm
    subst hpes2
    constructor
    · rw [lookupE_eraseE_ne _ _ _ (by decide)]
      exact lookupE_eraseE_self _ _
    · exact lookupE_eraseE_self _ _

/-- Witness for the amended C7: a truthy `LookupFromStack` is removed and
recorded, and a parameter without `Required` is recorded as required. -/
theorem post_process_params_spec_witness :
    ppParams [("p", .dict [("LookupFromStack", .s "other-stack")])] =
      .ok ([("p", .dict [])], [("p", .s "other-stack")], [("p", true)]) :=
  (post_process_params_spec [("p", .dict [("LookupFromStack", .s "other-stack")])]
    (fun e he => by
      simp at he
      subst he
      exact ⟨[("LookupFromStack", .s "other-stack")], "true", rfl, rfl⟩)).1

/-- Appending content never changes the class of the receiving frame. -/
theorem isElseFrame_appendCur (f c : SNode) :
    isElseFrame (appendCur f c) = isElseFrame f := by
  cases f with
  | val v => rfl
  | root cs pc => rfl
  | blockFn n ps cs pc => rfl
  | elseBlk n ps cs pc => rfl
  | ifBlk n ps ie inF tC fC pc =>
    by_cases h : inF <;> simp [appendCur, isElseFrame, h]

/-- The `ElseIf`-to-`If` rewrite never changes the class of the content. -/
theorem isElseFrame_rewriteElseIf (c : SNode) (pc : Nat) :
    isElseFrame (rewriteElseIf c pc) = isElseFrame c := by
  cases c <;> rfl

/-- A successful `add_content` preserves the class of the receiving frame
and of the (possibly rewritten) content. -/
theorem addContentCore_ok_frames {f c f2 c2 : SNode} {b1 b2 : Bool}
    (h : addContentCore f c = .ok (f2, c2, b1, b2)) :
    isElseFrame f2 = isElseFrame f ∧ isElseFrame c2 = isElseFrame c := by
  cases f with
  | val v =>
    simp [addContentCore] at h
    obtain ⟨h1, h2, _, _⟩ := h
    exact ⟨by rw [← h1], by rw [← h2]⟩
  | root cs pc =>
    simp [addContentCore] at h
    obtain ⟨h1, h2, _, _⟩ := h
    exact ⟨by rw [← h1], by rw [← h2]⟩
  | blockFn n ps cs pc =>
    simp [addContentCore] at h
    obtain ⟨h1, h2, _, _⟩ := h
    exact ⟨by rw [← h1], by rw [← h2]⟩
  | elseBlk n ps cs pc =>
    simp [addContentCore] at h
    obtain ⟨h1, h2, _, _⟩ := h
    exact ⟨by rw [← h1], by rw [← h2]⟩
  | ifBlk n ps ie inF tC fC pc =>
    simp only [addContentCore] at h
    split at h
    · split at h
      · cases h
      · split at h
        · cases h
        · split at h
          · simp at h
            obtain ⟨h1, h2, _, _⟩ := h
            exact ⟨by rw [← h1]; rfl, by rw [← h2]⟩
          · simp at h
            obtain ⟨h1, h2, _, _⟩ := h
            exact ⟨by rw [← h1]; rfl,
              by rw [← h2]; exact isElseFrame_rewriteElseIf c (pc + 1)⟩
    · simp at h
      obtain ⟨h1, h2, _, _⟩ := h
      exact ⟨by rw [← h1], by rw [← h2]⟩

/-- The pop loop preserves absence of `Else` frames. -/
theorem popN_noElse : ∀ (k : Nat) (st st' : Stack),
    stackNoElse st → popN k st = .ok st' → stackNoElse st' := by
  intro k
  induction k with
  | zero =>
    intro st st' hn h
    injection h with h
    exact h ▸ hn
  | succ k ih =>
    intro st st' hn h
    match st with
    | [] => simp [popN] at h
    | [f] =>
      rw [popN] at h
      exact ih [] st' (fun g hg => absurd hg (List.not_mem_nil g)) h
    | f :: p :: rest =>
      rw [popN] at h
      refine ih _ _ ?_ h
      intro g hg
      rcases List.mem_cons.mp hg with rfl | hg2
      · rw [isElseFrame_appendCur]
        exact hn p (by simp)
      · exact hn g (by simp [hg2])

/-- `_handle_func_block_close` preserves absence of `Else` frames. -/
theorem handleClose_noElse (st st' : Stack) (hn : stackNoElse st)
    (h : handleClose st = .ok st') : stackNoElse st' := by
  match st with
  | [] => simp [handleClose] at h
  | top :: rest => exact popN_noElse _ _ _ hn h

/-- Adding plain content preserves absence of `Else` frames. -/
theorem addVal_noElse (st : Stack) (v : Val) (st' : Stack)
    (hn : stackNoElse st) (h : addVal st v = .ok st') : stackNoElse st' := by
  match st with
  | [] => simp [addVal] at h
  | top :: rest =>
    simp only [addVal] at h
    rcases hac : addContentCore top (.val v) with e | ⟨top2, c2, b1, app⟩
    · rw [hac] at h
      cases h
    · rw [hac] at h
      injection h with h
      subst h
      intro g hg
      rcases List.mem_cons.mp hg with rfl | hg2
      · have hfr := (addContentCore_ok_frames hac).1
        have hif : isElseFrame (if app = true then appendCur top2 c2 else top2) =
            isElseFrame top2 := by
          by_cases happ : app = true <;> simp [happ, isElseFrame_appendCur]
        rw [hif, hfr]
        exact hn top (by simp)
      · exact hn g (by simp [hg2])

/-- A constructed function node is an `ElseBlockFunction` only for the
name `Else`. -/
theorem isElseFrame_mkFuncNode (name : String) (normParams : List Val)
    (h : name ≠ "Else") : isElseFrame (mkFuncNode name normParams) = false := by
  by_cases h1 : (name = "If" || name = "ElseIf") = true <;>
    simp [mkFuncNode, h1, h, isElseFrame]

/-- Adding an `Else` to an `If` frame never allows a push. -/
theorem addContentCore_else_no_push {n : String} {ps : List Val}
    {ie inF : Bool} {tC fC : List SNode} {pc : Nat} {c f2 c2 : SNode}
    {b1 b2 : Bool}
    (hfn : isFunctionNode c = true) (hname : funcNameOf c = some "Else")
    (h : addContentCore (.ifBlk n ps ie inF tC fC pc) c = .ok (f2, c2, b1, b2)) :
    b1 = false := by
  simp only [addContentCore] at h
  split at h
  · split at h
    · cases h
    · split at h
      · cases h
      · split at h
        · simp at h
          exact h.2.2.1
        · rename_i hne
          rw [hname] at hne
          simp at hne
  · rename_i hg
    rw [hfn, hname] at hg
    simp at hg

/-- `_handle_func` preserves absence of `Else` frames: in particular an
`Else` is either rejected by validation or swallowed without a push, so
no `ElseBlockFunction` ever lands on the stack. -/
theorem handleFunc_noElse (fuel : Nat) (st : Stack) (name : String)
    (psOpt : Option (List Char)) (opened : Bool) (st' : Stack)
    (hn : stackNoElse st) (h : handleFunc fuel st name psOpt opened = .ok st') :
    stackNoElse st' := by
  match fuel, st with
  | 0, _ => exact absurd h (by simp [handleFunc])
  | fuel + 1, [] => exact absurd h (by simp [handleFunc])
  | fuel + 1, top :: rest =>
    simp only [handleFunc] at h
    split at h
    · cases h
    · rename_i normParams hnp
      split at h
      · cases h
      · rename_i hguard
        split at h
        · cases h
        · rename_i top2 func2 canPush app hac
          split at h
          · rename_i hcp
            injection h with h
            subst h
            intro g hg
            rcases List.mem_cons.mp hg with rfl | hg2
            · rw [(addContentCore_ok_frames hac).2]
              by_cases hnm : name = "Else"
              · subst hnm
                have htop : isIfFrame top = true := by
                  by_contra hcon
                  rw [Bool.not_eq_true] at hcon
                  simp [hcon] at hguard
                match top, htop, hac with
                | .ifBlk tn tps tie tinF ttC tfC tpc, _, hac =>
                  have hb1 : canPush = false :=
                    addContentCore_else_no_push
                      (by simp [mkFuncNode, isFunctionNode])
                      (by simp [mkFuncNode, funcNameOf]) hac
                  rw [hb1] at hcp
                  simp at hcp
              · exact isElseFrame_mkFuncNode name normParams hnm
            · rcases List.mem_cons.mp hg2 with rfl | hg3
              · rw [(addContentCore_ok_frames hac).1]
                exact hn top (by simp)
              · exact hn g (by simp [hg3])
          · injection h with h
            subst h
            intro g hg
            rcases List.mem_cons.mp hg with rfl | hg2
            · have hif : isElseFrame
                  (if app = true then appendCur top2 func2 else top2) =
                  isElseFrame top2 := by
                by_cases happ : app = true <;> simp [happ, isElseFrame_appendCur]
              rw [hif, (addContentCore_ok_frames hac).1]
              exact hn top (by simp)
            · exact hn g (by simp [hg2])

/-- One parse step preserves absence of `Else` frames. -/
theorem processEvent_noElse (fuel : Nat) (st : Stack) (ev : Event)
    (st' : Stack) (hn : stackNoElse st)
    (h : processEvent fuel st ev = .ok st') : stackNoElse st' := by
  match fuel with
  | 0 => exact absurd h (by simp [processEvent])
  | fuel + 1 =>
    match ev with
    | .content cs => exact addVal_noElse _ _ _ hn h
    | .refTok name => exact addVal_noElse _ _ _ hn h
    | .varTok name => exact addVal_noElse _ _ _ hn h
    | .closeTok => exact handleClose_noElse _ _ hn h
    | .funcTok name ps opened => exact handleFunc_noElse fuel _ _ _ _ _ hn h

/-- The event loop preserves absence of `Else` frames. -/
theorem foldl_processEvent_noElse (evs : List Event) : ∀ (fuel : Nat)
    (st st' : Stack), stackNoElse st →
    evs.foldlM (processEvent fuel) st = .ok st' → stackNoElse st' := by
  induction evs with
  | nil =>
    intro fuel st st' hn h
    injection h with h
    exact h ▸ hn
  | cons ev evs ih =>
    intro fuel st st' hn h
    rw [List.foldlM_cons] at h
    rcases hpe : processEvent fuel st ev with e | s1
    · rw [hpe] at h
      cases h
    · rw [hpe] at h
      exact ih fuel s1 st' (processEvent_noElse fuel st ev s1 hn hpe) h

/-- C10: an `Else` frame is never pushed onto the parsing stack.  Running
`_parse_line` on any line preserves the invariant that no stack frame is
an `ElseBlockFunction` (the initial empty stack satisfies it vacuously,
and the bare item pushed at line start is not one), and swallowing an
`Else` into an `If` frame returns `False` so it is neither pushed nor
appended — the frame merely switches to its false bucket and the eventual
close marker pops the `If` chain itself. -/
theorem else_frame_never_on_stack :
    (∀ (fuel : Nat) (st : Stack) (l : List Char) (st' : Stack),
        stackNoElse st → processLine fuel st l = .ok st' → stackNoElse st') ∧
    (∀ (n2 : String) (ps2 : List Val) (ie inF : Bool) (tC fC : List SNode)
        (pc : Nat) (content : SNode),
        isFunctionNode content = true → funcNameOf content = some "Else" →
        tC ≠ [] → fC = [] →
        addContentCore (.ifBlk n2 ps2 ie inF tC fC pc) content =
          .ok (.ifBlk n2 ps2 ie true tC fC pc, content, false, false)) := by
  constructor
  · intro fuel st l st' hn h
    rw [processLine] at h
    refine foldl_processEvent_noElse (lexLine l) fuel _ st' ?_ h
    by_cases hemp : st.isEmpty
    · rw [if_pos hemp]
      intro g hg
      rcases List.mem_cons.mp hg with rfl | hg2
      · rfl
      · exact absurd hg2 (List.not_mem_nil g)
    · rw [if_neg hemp]
      exact hn
  · intro n2 ps2 ie inF tC fC pc content hfn hname htc hfc
    subst hfc
    have h1 : tC.isEmpty = false := by
      cases tC
      · exact absurd rfl htc
      · rfl
    simp [addContentCore, hfn, hname, h1]

/-- Witness for C10: processing a content line from the empty stack
yields a stack with no `Else` frame, and the `Else`-swallowing add
returns `False` with no append. -/
theorem else_frame_never_on_stack_witness :
    stackNoElse [SNode.root [.val (.s "x")] 1] ∧
    addContentCore (.ifBlk "If" [] false false [tNode] [] 1)
        (.elseBlk "Else" [] [] 1) =
      .ok (.ifBlk "If" [] false true [tNode] [] 1, .elseBlk "Else" [] [] 1,
           false, false) :=
  ⟨else_frame_never_on_stack.1 FUEL [] "x".data [SNode.root [.val (.s "x")] 1]
      (fun g hg => absurd hg (List.not_mem_nil g)) rfl,
   else_frame_never_on_stack.2 "If" [] false false [tNode] [] 1
      (.elseBlk "Else" [] [] 1) rfl rfl (by simp) rfl⟩

/-- C8 counterexample: a compute-instance resource with an
`AMINameFormat` but no `PreviousAMI` gets only two synthesized Outputs
(instance id and name format) in building-images mode, not three — the
previous-image Output is created only when the metadata carries
`PreviousAMI`, although `ami_outputs` still records all three key
names. -/
theorem ami_outputs_without_previous_only_two :
    compileLoad
      [("Meta", .dict [("Description", .s "d")]),
       ("Resources", .dict [("MyServer", .dict
          [("Type", .s "AWS::EC2::Instance"),
           ("Metadata", .dict [("CloudPuff",
              .dict [("AMINameFormat", .s "ami-fmt")])])])])]
      true =
    .ok { doc := [("AWSTemplateFormatVersion", .s "2010-09-09"),
                  ("Description", .s "d"),
                  ("Resources", .dict [("MyServer", .dict
                     [("Type", .s "AWS::EC2::Instance"),
                      ("Metadata", .dict [("CloudPuff",
                         .dict [("AMINameFormat", .s "ami-fmt")])])])]),
                  ("Outputs", .dict
                     [("CloudPuffMyServerInstanceID", .dict
                        [("Description", .s "Instance ID for MyServer"),
                         ("Value", .dict [("Ref", .s "MyServer")])]),
                      ("CloudPuffMyServerAMINameFormat", .dict
                        [("Description", .s "Name format for the AMI for MyServer"),
                         ("Value", .s "ami-fmt")])])],
          stackParamLookups := [],
          requiredParams := [],
          amiOutputs := [{ resourceName := "MyServer",
                           previousAmiKey := "CloudPuffMyServerPreviousAMI",
                           instanceIdKey := "CloudPuffMyServerInstanceID",
                           nameFormatKey := "CloudPuffMyServerAMINameFormat" }] }
    := rfl

/-- C8 amended: with `for_amis=False` the metadata scan changes nothing
and `ami_outputs` stays empty; with `for_amis=True`, each collected
resource contributes an instance-id Output and a name-format Output
always, a previous-image Output only when its metadata carried
`PreviousAMI`, and one `ami_outputs` record naming all three output
keys. -/
theorem scan_cloudpuff_metadata_spec :
    (∀ (doc : Entries) (res : List (String × Val)) (infos : List AmiInfo),
        lookupE doc "Resources" = some (.dict res) →
        scanAmiResources res = .ok infos →
        scanCloudpuffMetadata doc false = .ok (doc, [])) ∧
    (∀ (i : AmiInfo) (rest : List AmiInfo),
        (buildAmiOutputs (i :: rest)).2 =
          { resourceName := i.resourceName,
            previousAmiKey := "CloudPuff" ++ i.resourceName ++ "PreviousAMI",
            instanceIdKey := "CloudPuff" ++ i.resourceName ++ "InstanceID",
            nameFormatKey := "CloudPuff" ++ i.resourceName ++ "AMINameFormat" }
            :: (buildAmiOutputs rest).2) ∧
    (∀ (i : AmiInfo) (rest : List AmiInfo), i.previousAmi = none →
        (buildAmiOutputs (i :: rest)).1 =
          [("CloudPuff" ++ i.resourceName ++ "InstanceID", .dict
              [("Description", .s ("Instance ID for " ++ i.resourceName)),
               ("Value", .dict [("Ref", .s i.resourceName)])]),
           ("CloudPuff" ++ i.resourceName ++ "AMINameFormat", .dict
              [("Description", .s ("Name format for the AMI for " ++ i.resourceName)),
               ("Value", i.nameFormat)])] ++ (buildAmiOutputs rest).1) ∧
    (∀ (i : AmiInfo) (rest : List AmiInfo) (pv : Val), i.previousAmi = some pv →
        (buildAmiOutputs (i :: rest)).1 =
          [("CloudPuff" ++ i.resourceName ++ "InstanceID", .dict
              [("Description", .s ("Instance ID for " ++ i.resourceName)),
               ("Value", .dict [("Ref", .s i.resourceName)])]),
           ("CloudPuff" ++ i.resourceName ++ "AMINameFormat", .dict
              [("Description", .s ("Name format for the AMI for " ++ i.resourceName)),
               ("Value", i.nameFormat)]),
           ("CloudPuff" ++ i.resourceName ++ "PreviousAMI", .dict
              [("Description", .s ("Previous AMI ID created for " ++ i.resourceName)),
               ("Value", pv)])] ++ (buildAmiOutputs rest).1) := by
  refine ⟨?_, ?_, ?_, ?_⟩
  · intro doc res infos hres hscan
    simp [scanCloudpuffMetadata, hres, hscan]
  · intro i rest
    obtain ⟨fmt, rn, prev⟩ := i
    simp [buildAmiOutputs]
  · intro i rest hp
    obtain ⟨fmt, rn, prev⟩ := i
    simp only at hp
    subst hp
    simp [buildAmiOutputs]
  · intro i rest pv hp
    obtain ⟨fmt, rn, prev⟩ := i
    simp only at hp
    subst hp
    simp [buildAmiOutputs]

/-- Witness for the amended C8: a compile not in building-images mode
leaves the document untouched and records nothing. -/
theorem scan_cloudpuff_metadata_spec_witness :
    scanCloudpuffMetadata [("Resources", .dict [])] false =
      .ok ([("Resources", .dict [])], []) :=
  scan_cloudpuff_metadata_spec.1 [("Resources", .dict [])] [] [] rfl rfl

/-- Assigning a key the value it already has leaves the dict unchanged. -/
theorem setE_lookup_self (es : Entries) (k : String) (v : Val)
    (h : lookupE es k = some v) : setE es k v = es := by
  induction es with
  | nil => cases h
  | cons e rest ih =>
    obtain ⟨k1, v1⟩ := e
    by_cases h1 : k1 = k
    · rw [lookupE, if_pos h1] at h
      injection h with h
      subst h
      subst h1
      rw [setE, if_pos rfl]
    · rw [lookupE, if_neg h1] at h
      rw [setE, if_neg h1, ih h]

/-- Parameters without `LookupFromStack` or `Required` keys pass through
`_post_process_params` unchanged, all marked required. -/
theorem ppParams_no_keys (es : List (String × Val))
    (h : ∀ e ∈ es, ∃ pes, e.2 = Val.dict pes ∧
        lookupE pes "LookupFromStack" = none ∧ lookupE pes "Required" = none) :
    ppParams es = .ok (es, [], es.map (fun e => (e.1, true))) := by
  induction es with
  | nil => rfl
  | cons e rest ih =>
    obtain ⟨name, p⟩ := e
    obtain ⟨pes, hp, hl, hr⟩ := h (name, p) (by simp)
    simp only at hp
    subst hp
    have he1 : eraseE pes "LookupFromStack" = pes := eraseE_of_lookup_none _ _ hl
    have hrest := ih (fun e2 he2 => h e2 (by simp [he2]))
    simp [ppParams, he1, hl, hr, eraseE_of_lookup_none _ _ hr, hrest, lowerStr]

/-- C6 counterexample: a source with no macros, conditionals or
variables, whose document carries the five sections verbatim, is not
reproduced unchanged: a parameter carrying a `Required` entry has it
stripped out of the compiled `Parameters` section. -/
theorem compile_not_verbatim_with_required :
    compileLoad
      [("Meta", .dict [("Description", .s "d")]),
       ("Parameters", .dict [("p", .dict [("Required", .s "false")])]),
       ("Mappings", .dict [("k", .s "v")]),
       ("Conditions", .dict [("k", .s "v")]),
       ("Resources", .dict [("k", .s "v")]),
       ("Outputs", .dict [("k", .s "v")])]
      false =
    .ok { doc := [("AWSTemplateFormatVersion", .s "2010-09-09"),
                  ("Description", .s "d"),
                  ("Parameters", .dict [("p", .dict [])]),
                  ("Mappings", .dict [("k", .s "v")]),
                  ("Conditions", .dict [("k", .s "v")]),
                  ("Resources", .dict [("k", .s "v")]),
                  ("Outputs", .dict [("k", .s "v")])],
          stackParamLookups := [],
          requiredParams := [("p", false)],
          amiOutputs := [] } := rfl

/-- Reduction of the `Except` bind on a success value. -/
theorem except_ok_bind {α β : Type} (a : α) (f : α → Except PyErr β) :
    (Except.ok a >>= f) = f a := rfl

/-- C6 amended: compiling a source with no macros, no inline conditionals
and no variables reproduces the five sections verbatim — provided no
parameter mapping carries a `LookupFromStack` or `Required` entry (those
are extracted) — together with the fixed
`AWSTemplateFormatVersion = '2010-09-09'` header and the `Description`
from `Meta`; sections missing from the document default to empty and,
like any section left falsy, are removed from the final document. -/
theorem compile_plain_round_trip :
    (∀ (readerDoc : Entries) (metaEs ps res : List (String × Val))
       (dv vM vC vO : Val) (infos : List AmiInfo),
       lookupE readerDoc "Meta" = some (.dict metaEs) →
       lookupE metaEs "Description" = some dv →
       lookupE metaEs "Version" = none →
       lookupE readerDoc "Parameters" = some (.dict ps) →
       lookupE readerDoc "Mappings" = some vM →
       lookupE readerDoc "Conditions" = some vC →
       lookupE readerDoc "Resources" = some (.dict res) →
       lookupE readerDoc "Outputs" = some vO →
       containsFnIf vC = false →
       containsFnIf (.dict res) = false →
       (∀ e ∈ ps, ∃ pes, e.2 = Val.dict pes ∧
           lookupE pes "LookupFromStack" = none ∧
           lookupE pes "Required" = none) →
       scanAmiResources res = .ok infos →
       valTruthy (.dict ps) = true → valTruthy vM = true →
       valTruthy vC = true → valTruthy (.dict res) = true →
       valTruthy vO = true →
       compileLoad readerDoc false =
         .ok { doc := [("AWSTemplateFormatVersion", .s "2010-09-09"),
                       ("Description", dv),
                       ("Parameters", .dict ps), ("Mappings", vM),
                       ("Conditions", vC), ("Resources", .dict res),
                       ("Outputs", vO)],
               stackParamLookups := [],
               requiredParams := ps.map (fun e => (e.1, true)),
               amiOutputs := [] }) ∧
    (∀ (readerDoc : Entries) (metaEs : List (String × Val)) (dv : Val),
       lookupE readerDoc "Meta" = some (.dict metaEs) →
       lookupE metaEs "Description" = some dv →
       lookupE metaEs "Version" = none →
       lookupE readerDoc "Parameters" = none →
       lookupE readerDoc "Mappings" = none →
       lookupE readerDoc "Conditions" = none →
       lookupE readerDoc "Resources" = none →
       lookupE readerDoc "Outputs" = none →
       compileLoad readerDoc false =
         .ok { doc := [("AWSTemplateFormatVersion", .s "2010-09-09"),
                       ("Description", dv)],
               stackParamLookups := [], requiredParams := [],
               amiOutputs := [] }) := by
  constructor
  · intro readerDoc metaEs ps res dv vM vC vO infos hMeta hDesc hVer hP hM hC
      hR hO hCif hRif hps hscan hPt hMt hCt hRt hOt
    have hhdr : compileHeaderDoc readerDoc =
        .ok [("AWSTemplateFormatVersion", .s "2010-09-09"), ("Description", dv)] := by
      simp [compileHeaderDoc, hMeta, hDesc, hVer]
    have hcopy : copySections readerDoc
        [("AWSTemplateFormatVersion", .s "2010-09-09"), ("Description", dv)] =
        [("AWSTemplateFormatVersion", .s "2010-09-09"), ("Description", dv),
         ("Parameters", .dict ps), ("Mappings", vM), ("Conditions", vC),
         ("Resources", .dict res), ("Outputs", vO)] := by
      simp [copySections, SECTIONS, hP, hM, hC, hR, hO]
    have hD0P : lookupE
        [("AWSTemplateFormatVersion", .s "2010-09-09"), ("Description", dv),
         ("Parameters", .dict ps), ("Mappings", vM), ("Conditions", vC),
         ("Resources", .dict res), ("Outputs", vO)] "Parameters" =
        some (.dict ps) := by simp [lookupE]
    have hD0M : lookupE
        [("AWSTemplateFormatVersion", .s "2010-09-09"), ("Description", dv),
         ("Parameters", .dict ps), ("Mappings", vM), ("Conditions", vC),
         ("Resources", .dict res), ("Outputs", vO)] "Mappings" = some vM := by
      simp [lookupE]
    have hD0C : lookupE
        [("AWSTemplateFormatVersion", .s "2010-09-09"), ("Description", dv),
         ("Parameters", .dict ps), ("Mappings", vM), ("Conditions", vC),
         ("Resources", .dict res), ("Outputs", vO)] "Conditions" = some vC := by
      simp [lookupE]
    have hD0R : lookupE
        [("AWSTemplateFormatVersion", .s "2010-09-09"), ("Description", dv),
         ("Parameters", .dict ps), ("Mappings", vM), ("Conditions", vC),
         ("Resources", .dict res), ("Outputs", vO)] "Resources" =
        some (.dict res) := by simp [lookupE]
    have hD0O : lookupE
        [("AWSTemplateFormatVersion", .s "2010-09-09"), ("Description", dv),
         ("Parameters", .dict ps), ("Mappings", vM), ("Conditions", vC),
         ("Resources", .dict res), ("Outputs", vO)] "Outputs" = some vO := by
      simp [lookupE]
    have hhoist : hoistStage
        [("AWSTemplateFormatVersion", .s "2010-09-09"), ("Description", dv),
         ("Parameters", .dict ps), ("Mappings", vM), ("Conditions", vC),
         ("Resources", .dict res), ("Outputs", vO)] =
        .ok [("AWSTemplateFormatVersion", .s "2010-09-09"), ("Description", dv),
             ("Parameters", .dict ps), ("Mappings", vM), ("Conditions", vC),
             ("Resources", .dict res), ("Outputs", vO)] := by
      simp [hoistStage, hD0C, hD0R, hoistIfConditions, hCif, hRif,
        setE_lookup_self _ _ _ hD0C, setE_lookup_self _ _ _ hD0R]
    have hpp := ppParams_no_keys ps hps
    have hscan2 : scanCloudpuffMetadata
        [("AWSTemplateFormatVersion", .s "2010-09-09"), ("Description", dv),
         ("Parameters", .dict ps), ("Mappings", vM), ("Conditions", vC),
         ("Resources", .dict res), ("Outputs", vO)] false =
        .ok ([("AWSTemplateFormatVersion", .s "2010-09-09"), ("Description", dv),
              ("Parameters", .dict ps), ("Mappings", vM), ("Conditions", vC),
              ("Resources", .dict res), ("Outputs", vO)], []) := by
      simp [scanCloudpuffMetadata, hD0R, hscan]
    have hdrop : dropEmptySections
        [("AWSTemplateFormatVersion", .s "2010-09-09"), ("Description", dv),
         ("Parameters", .dict ps), ("Mappings", vM), ("Conditions", vC),
         ("Resources", .dict res), ("Outputs", vO)] =
        .ok [("AWSTemplateFormatVersion", .s "2010-09-09"), ("Description", dv),
             ("Parameters", .dict ps), ("Mappings", vM), ("Conditions", vC),
             ("Resources", .dict res), ("Outputs", vO)] := by
      simp [dropEmptySections, SECTIONS, except_ok_bind, hD0P, hD0M, hD0C,
        hD0R, hD0O, hPt, hMt, hCt, hRt, hOt]
    simp [compileLoad, hhdr, hcopy, hhoist, hD0P, hpp,
      setE_lookup_self _ _ _ hD0P, hscan2, hdrop]
  · intro readerDoc metaEs dv hMeta hDesc hVer hP hM hC hR hO
    have hhdr : compileHeaderDoc readerDoc =
        .ok [("AWSTemplateFormatVersion", .s "2010-09-09"), ("Description", dv)] := by
      simp [compileHeaderDoc, hMeta, hDesc, hVer]
    have hcopy : copySections readerDoc
        [("AWSTemplateFormatVersion", .s "2010-09-09"), ("Description", dv)] =
        [("AWSTemplateFormatVersion", .s "2010-09-09"), ("Description", dv),
         ("Parameters", .dict []), ("Mappings", .dict []),
         ("Conditions", .dict []), ("Resources", .dict []),
         ("Outputs", .dict [])] := by
      simp [copySections, SECTIONS, hP, hM, hC, hR, hO]
    have hD0P : lookupE
        [("AWSTemplateFormatVersion", .s "2010-09-09"), ("Description", dv),
         ("Parameters", .dict []), ("Mappings", .dict []),
         ("Conditions", .dict []), ("Resources", .dict []),
         ("Outputs", .dict [])] "Parameters" = some (.dict []) := by
      simp [lookupE]
    have hD0C : lookupE
        [("AWSTemplateFormatVersion", .s "2010-09-09"), ("Description", dv),
         ("Parameters", .dict []), ("Mappings", .dict []),
         ("Conditions", .dict []), ("Resources", .dict []),
         ("Outputs", .dict [])] "Conditions" = some (.dict []) := by
      simp [lookupE]
    have hD0R : lookupE
        [("AWSTemplateFormatVersion", .s "2010-09-09"), ("Description", dv),
         ("Parameters", .dict []), ("Mappings", .dict []),
         ("Conditions", .dict []), ("Resources", .dict []),
         ("Outputs", .dict [])] "Resources" = some (.dict []) := by
      simp [lookupE]
    have hhoist : hoistStage
        [("AWSTemplateFormatVersion", .s "2010-09-09"), ("Description", dv),
         ("Parameters", .dict []), ("Mappings", .dict []),
         ("Conditions", .dict []), ("Resources", .dict []),
         ("Outputs", .dict [])] =
        .ok [("AWSTemplateFormatVersion", .s "2010-09-09"), ("Description", dv),
             ("Parameters", .dict []), ("Mappings", .dict []),
             ("Conditions", .dict []), ("Resources", .dict []),
             ("Outputs", .dict [])] := by
      simp [hoistStage, hD0C, hD0R, hoistIfConditions, containsFnIf,
        containsFnIfEntries, setE_lookup_self _ _ _ hD0C,
        setE_lookup_self _ _ _ hD0R]
    have hscan2 : scanCloudpuffMetadata
        [("AWSTemplateFormatVersion", .s "2010-09-09"), ("Description", dv),
         ("Parameters", .dict []), ("Mappings", .dict []),
         ("Conditions", .dict []), ("Resources", .dict []),
         ("Outputs", .dict [])] false =
        .ok ([("AWSTemplateFormatVersion", .s "2010-09-09"), ("Description", dv),
              ("Parameters", .dict []), ("Mappings", .dict []),
              ("Conditions", .dict []), ("Resources", .dict []),
              ("Outputs", .dict [])], []) := by
      simp [scanCloudpuffMetadata, hD0R, scanAmiResources]
    have hdrop : dropEmptySections
        [("AWSTemplateFormatVersion", .s "2010-09-09"), ("Description", dv),
         ("Parameters", .dict []), ("Mappings", .dict []),
         ("Conditions", .dict []), ("Resources", .dict []),
         ("Outputs", .dict [])] =
        .ok [("AWSTemplateFormatVersion", .s "2010-09-09"),
             ("Description", dv)] := by
      simp [dropEmptySections, SECTIONS, except_ok_bind, lookupE, valTruthy,
        eraseE, List.filter]
    simp [compileLoad, hhdr, hcopy, hhoist, hD0P, ppParams,
      setE_lookup_self _ _ _ hD0P, hscan2, hdrop]

/-- Witness for the amended C6: the five-section document of the
compiler test is reproduced verbatim with the header fields. -/
theorem compile_plain_round_trip_witness :
    compileLoad
      [("Meta", .dict [("Description", .s "My description.")]),
       ("Parameters", .dict [("key", .dict [("Type", .s "String")])]),
       ("Mappings", .dict [("key", .s "value")]),
       ("Conditions", .dict [("key", .s "value")]),
       ("Resources", .dict [("key", .s "value")]),
       ("Outputs", .dict [("key", .s "value")])] false =
    .ok { doc := [("AWSTemplateFormatVersion", .s "2010-09-09"),
                  ("Description", .s "My description."),
                  ("Parameters", .dict [("key", .dict [("Type", .s "String")])]),
                  ("Mappings", .dict [("key", .s "value")]),
                  ("Conditions", .dict [("key", .s "value")]),
                  ("Resources", .dict [("key", .s "value")]),
                  ("Outputs", .dict [("key", .s "value")])],
          stackParamLookups := [],
          requiredParams := [("key", true)],
          amiOutputs := [] } :=
  compile_plain_round_trip.1 _ _ [("key", .dict [("Type", .s "String")])]
    [("key", .s "value")] _ _ _ _ []
    rfl rfl rfl rfl rfl rfl rfl rfl rfl rfl
    (fun e he => by
      simp at he
      subst he
      exact ⟨[("Type", .s "String")], rfl, rfl, rfl⟩)
    rfl rfl rfl rfl rfl rfl

/-- A terminator-free segment followed by a newline splits off as one
line. -/
theorem splitLinesAux_line (l : List Char) : ∀ (acc rest : List Char),
    (∀ c ∈ l, c ≠ '\n' ∧ c ≠ '\r') →
    splitLinesAux acc (l ++ '\n' :: rest) =
      (acc.reverse ++ l ++ ['\n']) :: splitLinesAux [] rest := by
  induction l with
  | nil =>
    intro acc rest _
    simp [splitLinesAux]
  | cons c l ih =>
    intro acc rest h
    obtain ⟨hc1, hc2⟩ := h c (by simp)
    rw [List.cons_append, splitLinesAux.eq_def]
    simp [hc1, hc2]
    rw [ih (c :: acc) rest (fun c2 hc => h c2 (by simp [hc]))]
    simp

/-- A nonempty terminator-free tail is the final line. -/
theorem splitLinesAux_last (l : List Char) : ∀ (acc : List Char), l ≠ [] →
    (∀ c ∈ l, c ≠ '\n' ∧ c ≠ '\r') →
    splitLinesAux acc l = [acc.reverse ++ l] := by
  induction l with
  | nil => intro acc h _; exact absurd rfl h
  | cons c l ih =>
    intro acc _ h
    obtain ⟨hc1, hc2⟩ := h c (by simp)
    rw [splitLinesAux.eq_def]
    simp [hc1, hc2]
    match l, ih with
    | [], _ => simp [splitLinesAux]
    | c2 :: l2, ih =>
      rw [ih (c :: acc) (by simp) (fun c3 hc => h c3 (by simp [hc]))]
      simp

/-- The chain source splits into the `If` line, the first content line,
and the `ElseIf`/content/close lines. -/
theorem splitLines_chain (n : Nat) :
    splitLinesC (chainChars n) =
      (ifBody ++ ['\n']) :: (tBody ++ ['\n']) :: chainMidLines n := by
  have hmid : ∀ m, splitLinesAux [] (midChars m) = chainMidLines m := by
    intro m
    induction m with
    | zero =>
      rw [midChars, chainMidLines]
      exact splitLinesAux_last closeBody [] (by decide) (by decide)
    | succ m ih =>
      rw [midChars, chainMidLines,
        splitLinesAux_line elseIfBody [] _ (by decide),
        splitLinesAux_line tBody [] _ (by decide), ih]
      simp
  rw [splitLinesC, chainChars,
    splitLinesAux_line ifBody [] _ (by decide),
    splitLinesAux_line tBody [] _ (by decide), hmid]
  simp

/-- Scanning the `If` line yields one opening block-function event. -/
theorem lexLine_ifLine : lexLine (ifBody ++ ['\n']) =
    [.funcTok "If" (some ['c']) true] := rfl

/-- Scanning an `ElseIf` line yields one opening block-function event. -/
theorem lexLine_elseIfLine : lexLine (elseIfBody ++ ['\n']) =
    [.funcTok "ElseIf" (some ['c']) true] := rfl

/-- Scanning a content line yields one literal-content event. -/
theorem lexLine_tLine : lexLine (tBody ++ ['\n']) = [.content ['t', '\n']] := rfl

/-- Scanning the close-marker line yields one close event. -/
theorem lexLine_closeLine : lexLine closeBody = [.closeTok] := rfl

/-- Processing the `If` line on an empty stack pushes the bare root item
and opens a fresh `If` frame. -/
theorem processLine_ifLine :
    processLine FUEL ([] : Stack) (ifBody ++ ['\n']) =
      .ok [.ifBlk "If" [cVal] false false [] [] 1, .root [] 1] := rfl

/-- Processing a content line with a fresh `If`-variant frame on top adds
the line to the frame's true bucket, whatever the frame's `_is_elseif`
flag, `pop_count` and ancestors. -/
theorem processLine_tLine (ie : Bool) (pc : Nat) (rest : Stack) :
    processLine FUEL (.ifBlk "If" [cVal] ie false [] [] pc :: rest)
        (tBody ++ ['\n']) =
      .ok (.ifBlk "If" [cVal] ie false [tNode] [] pc :: rest) := rfl

/-- Processing an `ElseIf` line when the open `If`-variant frame has true
content and an empty false bucket switches the frame to its false bucket
and pushes a rewritten child `If` frame with an incremented pop count. -/
theorem processLine_elseIfLine (ie : Bool) (pc : Nat) (rest : Stack) :
    processLine FUEL (.ifBlk "If" [cVal] ie false [tNode] [] pc :: rest)
        (elseIfBody ++ ['\n']) =
      .ok (.ifBlk "If" [cVal] true false [] [] (pc + 1)
            :: .ifBlk "If" [cVal] ie true [tNode] [] pc :: rest) := rfl

/-- Processing the close-marker line on a nonempty stack performs exactly
the pop loop of `_handle_func_block_close`. -/
theorem processLine_closeLine (top : SNode) (rest : Stack) :
    processLine FUEL (top :: rest) closeBody = handleClose (top :: rest) := by
  have hstep : processEvent FUEL (top :: rest) .closeTok =
      handleClose (top :: rest) := rfl
  show (lexLine closeBody).foldlM (processEvent FUEL) (top :: rest) =
    handleClose (top :: rest)
  rw [lexLine_closeLine]
  simp [List.foldlM, hstep]

/-- Closing the chain folds every ancestor link into the false bucket of
the next one, leaving the completed tree as the root item's only
content. -/
theorem popN_chain : ∀ (j : Nat) (cur : SNode),
    popN (j + 1) (cur :: belowStack j) = .ok [.root [foldChain j cur] 1] := by
  intro j
  induction j with
  | zero => intro cur; rfl
  | succ j ih =>
    intro cur
    show popN (j + 1 + 1)
        (cur :: .ifBlk "If" [cVal] (j != 0) true [tNode] [] (j + 1)
          :: belowStack j) = _
    rw [popN]
    show popN (j + 1)
        (.ifBlk "If" [cVal] (j != 0) true [tNode] [cur] (j + 1)
          :: belowStack j) = _
    rw [ih, foldChain]

/-- `_handle_func_block_close` on the full chain stack. -/
theorem handleClose_chain (j : Nat) :
    handleClose (chainStack j) =
      .ok [.root [foldChain j
        (.ifBlk "If" [cVal] (j != 0) false [tNode] [] (j + 1))] 1] := by
  show popN (j + 1) _ = _
  exact popN_chain j _

/-- Running the remaining chain lines (`n` `ElseIf`-plus-content links and
the close marker) from the stack with the `j`-th link open consumes the
whole chain and folds it into the root item. -/
theorem chainMid_run (n : Nat) : ∀ (j : Nat),
    (chainMidLines n).foldlM (processLine FUEL) (chainStack j) =
      .ok [.root [foldChain (j + n)
        (.ifBlk "If" [cVal] ((j + n) != 0) false [tNode] [] (j + n + 1))] 1] := by
  induction n with
  | zero =>
    intro j
    rw [chainMidLines, List.foldlM_cons, chainStack, processLine_closeLine]
    rw [show (SNode.ifBlk "If" [cVal] (j != 0) false [tNode] [] (j + 1)
          :: belowStack j) = chainStack j from rfl]
    rw [handleClose_chain, except_ok_bind]
    simp
    rfl
  | succ n ih =>
    intro j
    have hb : ((j + 1) != 0) = true := by simp
    rw [chainMidLines, List.foldlM_cons, chainStack, processLine_elseIfLine,
      except_ok_bind, List.foldlM_cons]
    rw [show (SNode.ifBlk "If" [cVal] (j != 0) true [tNode] [] (j + 1)
          :: belowStack j) = belowStack (j + 1) from rfl]
    rw [processLine_tLine, except_ok_bind]
    rw [show (SNode.ifBlk "If" [cVal] true false [tNode] [] (j + 1 + 1)
          :: belowStack (j + 1)) = chainStack (j + 1) from by
        rw [chainStack, hb]]
    rw [ih (j + 1)]
    rw [show j + 1 + n = j + (n + 1) from by omega]

/-- `nestIf` is never a variable reference. -/
theorem nestIf_not_varRef (k : Nat) : isVarRefVal (nestIf k) = false := by
  cases k <;> rfl

/-- `nestIf` (a nonempty mapping) is always truthy. -/
theorem nestIf_truthy (k : Nat) : valTruthy (nestIf k) = true := by
  cases k <;> rfl

/-- A mapping is not a list, so splicing it contributes it whole. -/
theorem nestIf_splice (k : Nat) : spliceVal (nestIf k) = [nestIf k] := by
  cases k <;> rfl

/-- A singleton list holding a serialized chain collapses back to it. -/
theorem collapse_single_nestIf (k : Nat) :
    collapseListVal (normalizeVarsList [nestIf k]) = nestIf k := by
  simp [normalizeVarsList, nestIf_not_varRef, collapseListVal]

/-- Serializing a closed chain link whose false bucket holds a serialized
inner chain wraps one more `Fn::If` level around it. -/
theorem normalizeNode_doneIf (b : Bool) (pc : Nat) (cur : SNode) (k : Nat)
    (h : normalizeNode cur = nestIf k) :
    normalizeNode (.ifBlk "If" [cVal] b true [tNode] [cur] pc) =
      nestIf (k + 1) := by
  have he : normalizeNode (.ifBlk "If" [cVal] b true [tNode] [cur] pc) =
      .dict [("Fn::If", .uncollapsible
        ([cVal] ++
          (spliceVal (collapseListVal (normalizeVarsList [.s "t\n"])) ++
            (if valTruthy (collapseListVal (normalizeVarsList [normalizeNode cur]))
             then spliceVal (collapseListVal (normalizeVarsList [normalizeNode cur]))
             else []))))] := rfl
  have ht : spliceVal (collapseListVal (normalizeVarsList [Val.s "t\n"])) =
      [Val.s "t\n"] := rfl
  rw [he, h, collapse_single_nestIf]
  simp [nestIf_truthy, nestIf_splice, nestIf, wrapIf, ht]

/-- Folding the close-marker pops over `j` closed links adds `j` `Fn::If`
levels to the serialization. -/
theorem foldChain_norm : ∀ (j : Nat) (cur : SNode) (k : Nat),
    normalizeNode cur = nestIf k →
    normalizeNode (foldChain j cur) = nestIf (j + k) := by
  intro j
  induction j with
  | zero =>
    intro cur k h
    rw [foldChain, Nat.zero_add]
    exact h
  | succ j ih =>
    intro cur k h
    rw [foldChain, ih _ (k + 1) (normalizeNode_doneIf _ _ cur k h)]
    congr 1
    omega

/-- The innermost open link (empty false bucket) serializes to the
false-branch-free `Fn::If`. -/
theorem normalizeNode_topIf (b : Bool) (pc : Nat) :
    normalizeNode (.ifBlk "If" [cVal] b false [tNode] [] pc) = nestIf 0 := rfl

/-- The serialized chain nests exactly `n + 1` `Fn::If` levels. -/
theorem fnIfDepth_nestIf (n : Nat) : fnIfDepth (nestIf n) = n + 1 := by
  induction n with
  | zero => rfl
  | succ n ih =>
    rw [nestIf, wrapIf]
    simp [fnIfDepth, fnIfDepthEntries, fnIfDepthList, cVal, ih]
    omega

/-- `parse_string` on the chain source returns the nested `Fn::If`
serialization. -/
theorem parse_chain (n : Nat) : parseStringE (chainSrc n) = .ok (nestIf n) := by
  have hdata : (chainSrc n).data = chainChars n := rfl
  have hsplit : splitLinesC (chainSrc n).data =
      (ifBody ++ ['\n']) :: (tBody ++ ['\n']) :: chainMidLines n := by
    rw [hdata]; exact splitLines_chain n
  have hb64 : (stripPy (ifBody ++ ['\n']) == "__base64__".data) = false := rfl
  rw [parseStringE.eq_def, hsplit]
  simp only [hb64, if_false, Bool.false_eq_true, ite_false]
  rw [parseLinesResult, List.foldlM_cons, processLine_ifLine, except_ok_bind,
    List.foldlM_cons, processLine_tLine, except_ok_bind]
  rw [show (SNode.ifBlk "If" [cVal] false false [tNode] [] 1
        :: [SNode.root [] 1]) = chainStack 0 from rfl]
  rw [chainMid_run n 0]
  have hfc : normalizeNode (foldChain (0 + n)
      (.ifBlk "If" [cVal] ((0 + n) != 0) false [tNode] [] (0 + n + 1))) =
      nestIf n := by
    have h2 := foldChain_norm (0 + n) _ 0
      (normalizeNode_topIf ((0 + n) != 0) (0 + n + 1))
    rw [h2]
    congr 1
    omega
  rw [finishParse]
  simp only [List.length_cons, List.length_nil]
  rw [if_neg (by omega)]
  have hroot : normalizeNode (.root [foldChain (0 + n)
      (.ifBlk "If" [cVal] ((0 + n) != 0) false [tNode] [] (0 + n + 1))] 1) =
      nestIf n := by
    show collapseListVal (normalizeVarsList [normalizeNode (foldChain (0 + n)
      (.ifBlk "If" [cVal] ((0 + n) != 0) false [tNode] [] (0 + n + 1)))]) = _
    rw [hfc, collapse_single_nestIf]
  rw [hroot]
  rfl

/-- C1: for every inline conditional chain (`If` plus `n` `ElseIf` links),
parsing succeeds with a single trailing close-marker — the `ElseIf`s are
rewritten in place into nested `If`s whose pop counts accumulate, so one
`<% \x7d %>` pops the whole chain — and the serialized `Fn::If` tree nests
exactly `n + 1` levels; moreover `IfBlockFunction.add_content`, given an
`ElseIf` function while the frame's true bucket is nonempty and its false
bucket empty, rewrites the content in place to an `If` named node with
`_is_elseif` set and `pop_count` equal to the receiving frame's
`pop_count` plus one. -/
theorem elseif_chain_pop_and_depth (n : Nat) :
    parseStringE (chainSrc n) = .ok (nestIf n) ∧
    fnIfDepth (nestIf n) = n + 1 ∧
    (∀ (np : String) (pps : List Val) (ie inF : Bool) (tC fC : List SNode)
       (pc : Nat) (cps : List Val) (cie cinF : Bool) (ctC cfC : List SNode)
       (cpc : Nat), tC ≠ [] → fC = [] →
       addContentCore (.ifBlk np pps ie inF tC fC pc)
           (.ifBlk "ElseIf" cps cie cinF ctC cfC cpc) =
         .ok (.ifBlk np pps ie true tC fC pc,
              .ifBlk "If" cps true cinF ctC cfC (pc + 1), true, true)) := by
  refine ⟨parse_chain n, fnIfDepth_nestIf n, ?_⟩
  intro np pps ie inF tC fC pc cps cie cinF ctC cfC cpc h1 h2
  subst h2
  cases tC with
  | nil => exact absurd rfl h1
  | cons a as => rfl

/-- C1 witness: the chain with two `ElseIf`s parses to a three-level
`Fn::If` nest, and the in-place `ElseIf` rewrite at a concrete frame. -/
theorem elseif_chain_pop_and_depth_witness :
    parseStringE (chainSrc 2) = .ok (nestIf 2) ∧
    fnIfDepth (nestIf 2) = 2 + 1 ∧
    addContentCore (.ifBlk "If" [cVal] false false [tNode] [] 1)
        (.ifBlk "ElseIf" [cVal] false false [] [] 1) =
      .ok (.ifBlk "If" [cVal] false true [tNode] [] 1,
           .ifBlk "If" [cVal] true false [] [] (1 + 1), true, true) :=
  ⟨(elseif_chain_pop_and_depth 2).1, (elseif_chain_pop_and_depth 2).2.1,
   (elseif_chain_pop_and_depth 2).2.2 "If" [cVal] false false [tNode] [] 1
     [cVal] false false [] [] 1 (List.cons_ne_nil tNode []) rfl⟩
